import Mathlib

/-!
A verification development for the fractured-json formatting core
(src/types.rs, src/options.rs, src/computed.rs, src/formatter.rs).

Modelling conventions:
* Rust `String`/`&str` values are Lean `String`s; Rust `str::len()` (a byte
  count) is modelled by `byteLen` (the sum of the UTF-8 sizes of the chars).
* The formatter only ever appends to its single output buffer, so every
  buffer-writing Rust function is modelled as a function returning the
  string of bytes it appends.
* `usize` arithmetic is `Nat` arithmetic; the one subtraction that can
  underflow (`max_total_line_length - (indent + 1) * indent_spaces` in
  `calculate_items_per_row`) is modelled by `usize_wrapping_sub`, the
  release-profile wrapping semantics of Rust subtraction.
* The one fallible operation is the `column_widths[col_idx]` indexing in
  `format_table_array`, which can panic; rendering functions therefore
  return `Option String`, with `none` modelling a panic.
* So that every function is structurally recursive (and hence evaluable by
  the kernel), the bodies of the per-layout renderers of `format_item` are
  inlined into `format_item` itself (each section is labelled with the name
  of the Rust function it transcribes), and the per-child loops are
  top-level helper functions on the child list.  The computed-metrics cache
  (`ComputedItem` / `ItemRef`) is replaced by the pure functions it
  memoizes, computed on demand.
-/

namespace FracturedJson

/-- Byte length of a string, the model of Rust `str::len()`. -/
def byteLen (s : String) : Nat := (s.data.map Char.utf8Size).sum

/-! ## types.rs -/

/-- `JsonItemType` from types.rs. -/
inductive JsonItemType where
  | nullType
  | falseType
  | trueType
  | stringType
  | numberType
  | objectType
  | arrayType
  | blankLine
  | lineComment
  | blockComment
deriving DecidableEq, Repr

/-- `JsonItemType::is_comment`. -/
def JsonItemType.is_comment : JsonItemType → Bool
  | .lineComment | .blockComment => true
  | _ => false

/-- `JsonItemType::is_comment_or_blank`. -/
def JsonItemType.is_comment_or_blank : JsonItemType → Bool
  | .lineComment | .blockComment | .blankLine => true
  | _ => false

/-- `JsonItemType::is_structural`. -/
def JsonItemType.is_structural : JsonItemType → Bool
  | .objectType | .arrayType => true
  | _ => false

/-- `JsonItemType::is_value`. -/
def JsonItemType.is_value : JsonItemType → Bool
  | .stringType | .numberType | .trueType | .falseType | .nullType => true
  | _ => false

/-- `JsonItem` from types.rs (the `input_position` field is dropped: it is
never read by the formatting core). -/
inductive JsonItem where
  | mk (item_type : JsonItemType) (name : String) (value : String)
      (pre_comment : Option String) (mid_comment : Option String)
      (post_comment : Option String) (is_post_comment_line_style : Bool)
      (children : List JsonItem)

/-- Field accessor: `item_type`. -/
def JsonItem.item_type : JsonItem → JsonItemType
  | .mk t _ _ _ _ _ _ _ => t

/-- Field accessor: `name`. -/
def JsonItem.name : JsonItem → String
  | .mk _ n _ _ _ _ _ _ => n

/-- Field accessor: `value`. -/
def JsonItem.value : JsonItem → String
  | .mk _ _ v _ _ _ _ _ => v

/-- Field accessor: the `prefix_comment` field of the Rust struct. -/
def JsonItem.pre_comment : JsonItem → Option String
  | .mk _ _ _ p _ _ _ _ => p

/-- Field accessor: the `middle_comment` field of the Rust struct. -/
def JsonItem.mid_comment : JsonItem → Option String
  | .mk _ _ _ _ m _ _ _ => m

/-- Field accessor: the `postfix_comment` field of the Rust struct. -/
def JsonItem.post_comment : JsonItem → Option String
  | .mk _ _ _ _ _ q _ _ => q

/-- Field accessor: `is_post_comment_line_style`. -/
def JsonItem.is_post_comment_line_style : JsonItem → Bool
  | .mk _ _ _ _ _ _ b _ => b

/-- Field accessor: `children`. -/
def JsonItem.children : JsonItem → List JsonItem
  | .mk _ _ _ _ _ _ _ cs => cs

/-- `JsonItem::has_comments`. -/
def JsonItem.has_comments (item : JsonItem) : Bool :=
  item.pre_comment.isSome || item.mid_comment.isSome || item.post_comment.isSome

/-- `JsonItem::is_empty`. -/
def JsonItem.is_empty (item : JsonItem) : Bool :=
  match item.item_type with
  | .objectType | .arrayType => item.children.isEmpty
  | _ => false

/-- Induction over `JsonItem` with the hypothesis available for every child. -/
theorem JsonItem.ind (P : JsonItem → Prop)
    (h : ∀ t n v pc mc qc ls cs, (∀ c ∈ cs, P c) → P (.mk t n v pc mc qc ls cs)) :
    ∀ item, P item := by
  intro item
  induction item using JsonItem.rec (motive_2 := fun cs => ∀ c ∈ cs, P c) with
  | mk t n v pc mc qc ls cs ih => exact h t n v pc mc qc ls cs ih
  | nil => rename_i c hc; exact absurd hc (by simp)
  | cons c cs ihc ihcs =>
    rename_i d hd
    cases hd with
    | head => exact ihc
    | tail _ h2 => exact ihcs d h2

/-! ## options.rs -/

/-- `EolStyle` from options.rs. -/
inductive EolStyle where
  | lf
  | crlf
  | defaultStyle
deriving DecidableEq, Repr

/-- `TableCommaPlacement` from options.rs. -/
inductive TableCommaPlacement where
  | endOfLine
  | nextLine
deriving DecidableEq, Repr

/-- `NumberListAlignment` from options.rs. -/
inductive NumberListAlignment where
  | noAlignment
  | leftAlignment
  | decimalAlignment
deriving DecidableEq, Repr

/-- `CommentPolicy` from options.rs. -/
inductive CommentPolicy where
  | preserve
  | remove
deriving DecidableEq, Repr

/-- `FracturedJsonOptions` from options.rs. -/
structure FracturedJsonOptions where
  json_eol_style : EolStyle
  max_total_line_length : Nat
  max_inline_complexity : Nat
  max_compact_array_complexity : Nat
  max_table_row_complexity : Nat
  max_prop_name_padding : Nat
  colon_before_prop_name_padding : Bool
  table_comma_placement : TableCommaPlacement
  min_compact_array_row_items : Nat
  always_expand_depth : Int
  nested_bracket_padding : Bool
  simple_bracket_padding : Bool
  colon_padding : Bool
  comma_padding : Bool
  comment_padding : Bool
  number_list_alignment : NumberListAlignment
  indent_spaces : Nat
  use_tab_to_indent : Bool
  prefix_string : String
  comment_policy : CommentPolicy
  preserve_blank_lines : Bool
  allow_trailing_commas : Bool
deriving DecidableEq, Repr

/-- `FracturedJsonOptions::default`. -/
def default_options : FracturedJsonOptions where
  json_eol_style := .defaultStyle
  max_total_line_length := 120
  max_inline_complexity := 1
  max_compact_array_complexity := 2
  max_table_row_complexity := 1
  max_prop_name_padding := 40
  colon_before_prop_name_padding := false
  table_comma_placement := .endOfLine
  min_compact_array_row_items := 4
  always_expand_depth := 0
  nested_bracket_padding := true
  simple_bracket_padding := true
  colon_padding := true
  comma_padding := true
  comment_padding := true
  number_list_alignment := .noAlignment
  indent_spaces := 4
  use_tab_to_indent := false
  prefix_string := ""
  comment_policy := .preserve
  preserve_blank_lines := true
  allow_trailing_commas := false

/-- `FracturedJsonOptions::eol_string`. -/
def FracturedJsonOptions.eol_string (o : FracturedJsonOptions) : String :=
  match o.json_eol_style with
  | .lf => "\n"
  | .crlf => "\r\n"
  | .defaultStyle => "\n"

/-! ## computed.rs

`ComputedItem` caches, per node: `complexity`, `minimum_total_length`,
`requires_multiple_lines`, `name_length` (= `byteLen name`) and
`value_length` (= `byteLen value`).  Here each cached quantity is the
recursive function that `ItemRef::compute_recursive` evaluates bottom-up.
-/

mutual
/-- `compute_complexity_impl` from computed.rs. -/
def complexity : JsonItem → Nat
  | .mk t _ _ _ _ _ _ cs =>
    match t with
    | .arrayType | .objectType => complexity_children_max cs + 1
    | _ => 0

/-- `children.iter().map(|c| c.computed.complexity).max().unwrap_or(0)`. -/
def complexity_children_max : List JsonItem → Nat
  | [] => 0
  | c :: cs => max (complexity c) (complexity_children_max cs)
end

mutual
/-- `compute_lengths_impl` from computed.rs (QUOTES_SIZE = 2,
BRACKETS_SIZE = 2, COLON_SIZE = 1). -/
def minimum_total_length (o : FracturedJsonOptions) : JsonItem → Nat
  | .mk t _ v _ _ _ _ cs =>
    match t with
    | .arrayType =>
      let children_len := array_children_length o cs
      let separators :=
        if cs.isEmpty then 0 else (cs.length - 1) * (if o.comma_padding then 2 else 1)
      let brackets := if o.simple_bracket_padding then 2 else 0
      children_len + separators + brackets + 2
    | .objectType =>
      let children_len := object_children_length o cs
      let separators :=
        if cs.isEmpty then 0 else (cs.length - 1) * (if o.comma_padding then 2 else 1)
      let brackets := if o.simple_bracket_padding then 2 else 0
      children_len + separators + brackets + 2
    | .stringType | .numberType | .trueType | .falseType | .nullType => byteLen v
    | .lineComment | .blockComment => byteLen v
    | .blankLine => 0

/-- Array case: `children.iter().map(|c| c.computed.minimum_total_length).sum()`. -/
def array_children_length (o : FracturedJsonOptions) : List JsonItem → Nat
  | [] => 0
  | c :: cs => minimum_total_length o c + array_children_length o cs

/-- Object case: sum over children of
`name_length + COLON_SIZE + QUOTES_SIZE + minimum_total_length`. -/
def object_children_length (o : FracturedJsonOptions) : List JsonItem → Nat
  | [] => 0
  | c :: cs =>
    byteLen c.name + 1 + 2 + minimum_total_length o c + object_children_length o cs
end

mutual
/-- `compute_requires_multiple_lines_impl` from computed.rs. -/
def requires_multiple_lines : JsonItem → Bool
  | .mk t _ _ _ _ _ _ cs =>
    match t with
    | .arrayType | .objectType =>
      children_have_comments cs || children_require_multiple_lines cs
    | _ => false

/-- `children.iter().any(|c| c.has_comments())`. -/
def children_have_comments : List JsonItem → Bool
  | [] => false
  | c :: cs => c.has_comments || children_have_comments cs

/-- `children.iter().any(|c| c.computed.requires_multiple_lines)`. -/
def children_require_multiple_lines : List JsonItem → Bool
  | [] => false
  | c :: cs => requires_multiple_lines c || children_require_multiple_lines cs
end

/-! ## formatter.rs: layout decision functions -/

/-- `should_inline` from formatter.rs. -/
def should_inline (item : JsonItem) (o : FracturedJsonOptions) (indent : Nat) : Bool :=
  if requires_multiple_lines item then false
  else if item.has_comments then false
  else if complexity item > o.max_inline_complexity then false
  else if minimum_total_length o item + indent * o.indent_spaces > o.max_total_line_length
    then false
  else true

/-- `should_format_as_compact_array` from formatter.rs (its `_indent`
parameter is unused in the source and dropped here). -/
def should_format_as_compact_array (item : JsonItem) (o : FracturedJsonOptions) : Bool :=
  if item.item_type ≠ JsonItemType.arrayType then false
  else if item.is_empty then false
  else if complexity item > o.max_compact_array_complexity then false
  else if item.has_comments then false
  else if item.children.length < o.min_compact_array_row_items then false
  else true

/-- `get_item_type_for_table` from formatter.rs. -/
def get_item_type_for_table (item : JsonItem) : Option JsonItemType :=
  match item.item_type with
  | .objectType => if item.is_empty then none else some .objectType
  | .arrayType => if item.is_empty then none else some .arrayType
  | .stringType | .numberType | .trueType | .falseType | .nullType => some item.item_type
  | _ => none

/-- `get_property_names` from formatter.rs. -/
def get_property_names (item : JsonItem) : List String :=
  if item.item_type ≠ JsonItemType.objectType then []
  else item.children.map JsonItem.name

/-- `can_format_as_table_array` from formatter.rs. -/
def can_format_as_table_array (item : JsonItem) : Bool :=
  if item.is_empty then false
  else
    match item.children with
    | [] => false
    | c0 :: _ =>
      let first_type := get_item_type_for_table c0
      if first_type.isNone then false
      else item.children.all (fun c => get_item_type_for_table c = first_type)

/-- `can_format_as_table_object` from formatter.rs. -/
def can_format_as_table_object (item : JsonItem) : Bool :=
  if item.is_empty then false
  else
    match item.children with
    | [] => false
    | c0 :: _ =>
      let first_props := get_property_names c0
      if first_props.isEmpty then false
      else item.children.all (fun c => get_property_names c = first_props)

/-- `should_format_as_table` from formatter.rs (its `_indent` parameter is
unused in the source and dropped here). -/
def should_format_as_table (item : JsonItem) (o : FracturedJsonOptions) : Bool :=
  if item.item_type = JsonItemType.arrayType then
    if requires_multiple_lines item then false
    else if item.is_empty then false
    else if complexity item > o.max_table_row_complexity then false
    else if ¬ can_format_as_table_array item then false
    else true
  else if item.item_type = JsonItemType.objectType then
    if item.is_empty then false
    else if complexity item > o.max_table_row_complexity then false
    else if ¬ can_format_as_table_object item then false
    else true
  else false

/-- The four layout strategies a container can be rendered with. -/
inductive LayoutMode where
  | inlineMode
  | compactArrayMode
  | tableMode
  | expandedMode
deriving DecidableEq, Repr

/-- The layout dispatch of `format_item` (the if/else chains in its
`JsonItemType::Array` and `JsonItemType::Object` arms); `none` for
non-container nodes, which have no layout decision. -/
def chosen_layout (item : JsonItem) (o : FracturedJsonOptions) (indent : Nat) :
    Option LayoutMode :=
  match item.item_type with
  | .arrayType =>
    if should_inline item o indent then some .inlineMode
    else if should_format_as_compact_array item o then some .compactArrayMode
    else if should_format_as_table item o then some .tableMode
    else some .expandedMode
  | .objectType =>
    if should_inline item o indent then some .inlineMode
    else if should_format_as_table item o then some .tableMode
    else some .expandedMode
  | _ => none

/-! ## formatter.rs: text utilities -/

/-- The 32-space constant `SPACES` in `write_spaces`. -/
def SPACES : String := "                                "

/-- `write_spaces` from formatter.rs: the loop pushes one 32-space chunk per
iteration while `remaining >= 32` (so `count / 32` chunks in total), then
pushes the first `count % 32` characters of `SPACES`. -/
def write_spaces_chunks : Nat → String
  | 0 => ""
  | n + 1 => SPACES ++ write_spaces_chunks n

/-- `write_spaces` from formatter.rs (see `write_spaces_chunks`). -/
def write_spaces (count : Nat) : String :=
  write_spaces_chunks (count / 32) ++ String.mk (SPACES.data.take (count % 32))

/-- `write_indent` from formatter.rs. -/
def write_indent (o : FracturedJsonOptions) (indent : Nat) : String :=
  if o.use_tab_to_indent then String.mk (List.replicate indent '\t')
  else write_spaces (indent * o.indent_spaces)

/-- The escape test in `escape_string`:
`matches!(c, '\\' | '"' | '\n' | '\t' | '\r' | '\x08' | '\x0c') || c <= '\u{001f}'`. -/
def char_needs_escape (c : Char) : Bool :=
  c = '\\' || c = '"' || c = '\n' || c = '\t' || c = '\r' ||
    c = '\u0008' || c = '\u000c' || c ≤ '\u001f'

/-- The `HEX` digit table in `escape_string`. -/
def HEX : List Char := "0123456789abcdef".data

/-- The per-character branch of the `escape_string` loop. -/
def escape_char (c : Char) : List Char :=
  if c = '\\' then ['\\', '\\']
  else if c = '"' then ['\\', '"']
  else if c = '\n' then ['\\', 'n']
  else if c = '\t' then ['\\', 't']
  else if c = '\r' then ['\\', 'r']
  else if c = '\u0008' then ['\\', 'b']
  else if c = '\u000c' then ['\\', 'f']
  else if c ≤ '\u001f' then
    ['\\', 'u', '0', '0', HEX.getD (c.toNat / 16 % 16) '0', HEX.getD (c.toNat % 16) '0']
  else [c]

/-- `escape_string` from formatter.rs: identity fast path when no character
needs escaping, otherwise each character is replaced by its escape. -/
def escape_string (s : String) : String :=
  if ¬ s.data.any char_needs_escape then s
  else String.mk (s.data.flatMap escape_char)

/-- `write_quotes` from formatter.rs. -/
def write_quotes (s : String) : String :=
  "\"" ++ escape_string s ++ "\""

/-- `write_quoted_property_name` from formatter.rs (no escaping). -/
def write_quoted_property_name (s : String) : String :=
  "\"" ++ s ++ "\""

/-- `write_prefix_comment` from formatter.rs. -/
def write_pre_comment (item : JsonItem) (o : FracturedJsonOptions) : String :=
  if o.comment_policy ≠ CommentPolicy.preserve then ""
  else
    match item.pre_comment with
    | some c =>
      (if o.comment_padding then " " else "") ++ c ++ (if o.comment_padding then " " else "")
    | none => ""

/-- `write_middle_comment` from formatter.rs. -/
def write_mid_comment (item : JsonItem) (o : FracturedJsonOptions) (indent : Nat) : String :=
  if o.comment_policy ≠ CommentPolicy.preserve then ""
  else
    match item.mid_comment with
    | some c =>
      o.eol_string ++ write_indent o indent ++ c ++ o.eol_string ++ write_indent o indent
    | none => ""

/-- `write_postfix_comment` from formatter.rs. -/
def write_post_comment (item : JsonItem) (o : FracturedJsonOptions) : String :=
  if o.comment_policy ≠ CommentPolicy.preserve then ""
  else
    match item.post_comment with
    | some c => (if o.comment_padding then " " else "") ++ c
    | none => ""

/-- `format!("{:<width$}", value)`: left-aligned padding to `width`
(Rust pads by character count). -/
def pad_right (value : String) (width : Nat) : String :=
  value ++ String.mk (List.replicate (width - value.length) ' ')

/-- `format!("{: >width$}", value)`: right-aligned padding to `width`. -/
def pad_left (value : String) (width : Nat) : String :=
  String.mk (List.replicate (width - value.length) ' ') ++ value

/-- `format_number_aligned` from formatter.rs. -/
def format_number_aligned (value : String) (o : FracturedJsonOptions)
    (other_values : List String) : String :=
  match o.number_list_alignment with
  | .noAlignment => value
  | .leftAlignment =>
    match (other_values.map byteLen).max? with
    | some max_len => pad_right value max_len
    | none => value
  | .decimalAlignment =>
    let max_integer_part :=
      ((other_values.map (fun v => (v.splitOn ".").headD v)).map byteLen).max?.getD
        (byteLen value)
    if value.contains '.' then
      let parts := value.splitOn "."
      if parts.length = 2 then
        pad_left (parts.getD 0 "") max_integer_part ++ "." ++ parts.getD 1 ""
      else value
    else pad_left value max_integer_part

/-! ## formatter.rs: compact-array and table machinery -/

/-- Release-profile Rust `usize` subtraction: wraps modulo `2^64` on
underflow (for operands below `2^64`, which all quantities here are). -/
def usize_wrapping_sub (a b : Nat) : Nat :=
  if b ≤ a then a - b else a + 2 ^ 64 - b

/-- Sum of the children's `minimum_total_length` (the iterator sum in
`calculate_items_per_row`). -/
def children_min_length_sum (o : FracturedJsonOptions) : List JsonItem → Nat
  | [] => 0
  | c :: cs => minimum_total_length o c + children_min_length_sum o cs

/-- `calculate_items_per_row` from formatter.rs.  The subtraction
`max_total_line_length - (indent + 1) * indent_spaces` is the one that can
underflow; see `usize_wrapping_sub`. -/
def calculate_items_per_row (item : JsonItem) (o : FracturedJsonOptions)
    (indent : Nat) : Nat :=
  if item.is_empty then 1
  else
    let max_width := usize_wrapping_sub o.max_total_line_length ((indent + 1) * o.indent_spaces)
    let avg_item_width := children_min_length_sum o item.children / item.children.length
    if avg_item_width = 0 then 1
    else max (max_width / (max avg_item_width 1)) 1

/-- `calculate_value_display_length` from formatter.rs. -/
def calculate_value_display_length (item : JsonItem) : Nat :=
  match item.item_type with
  | .stringType =>
    let base_len := byteLen item.value
    min (base_len * 2) (base_len + base_len / 5 + 10)
  | .numberType | .trueType | .falseType | .nullType => byteLen item.value
  | .objectType => 2
  | .arrayType => 2
  | _ => 0

/-- `get_column_count` from formatter.rs. -/
def get_column_count (item : JsonItem) : Nat :=
  match item.item_type with
  | .objectType => item.children.length
  | .arrayType => item.children.length
  | _ => 1

/-- `format_value_simple` from formatter.rs. -/
def format_value_simple (item : JsonItem) : String :=
  match item.item_type with
  | .stringType => "\"" ++ escape_string item.value ++ "\""
  | .numberType => item.value
  | .trueType => "true"
  | .falseType => "false"
  | .nullType => "null"
  | .objectType => "{}"
  | .arrayType => "[]"
  | _ => ""

/-- `get_column_values` from formatter.rs. -/
def get_column_values (item : JsonItem) : List String :=
  match item.item_type with
  | .objectType => item.children.map format_value_simple
  | .arrayType => item.children.map format_value_simple
  | _ => [format_value_simple item]

/-- The guarded update `if col_idx < widths.len() { widths[col_idx] =
widths[col_idx].max(new) }` in `calculate_table_column_widths`. -/
def update_width (widths : List Nat) (i new : Nat) : List Nat :=
  if h : i < widths.length then widths.set i (max (widths.get ⟨i, h⟩) new) else widths

/-- The object-row inner loop of `calculate_table_column_widths`: per cell,
width candidate `name_length + (value_display_length + 2) + 4 + indent *
indent_spaces`. -/
def object_row_widths (o : FracturedJsonOptions) (indent : Nat) :
    List JsonItem → Nat → List Nat → List Nat
  | [], _, widths => widths
  | c :: cs, col_idx, widths =>
    let value_len := calculate_value_display_length c + 2
    let total_len := byteLen c.name + value_len + 4
    let indent_len := total_len + indent * o.indent_spaces
    object_row_widths o indent cs (col_idx + 1) (update_width widths col_idx indent_len)

/-- The array-row inner loop of `calculate_table_column_widths`: per cell,
width candidate `(value_display_length + 2) + indent * indent_spaces`. -/
def array_row_widths (o : FracturedJsonOptions) (indent : Nat) :
    List JsonItem → Nat → List Nat → List Nat
  | [], _, widths => widths
  | c :: cs, col_idx, widths =>
    let value_len := calculate_value_display_length c + 2
    let indent_len := value_len + indent * o.indent_spaces
    array_row_widths o indent cs (col_idx + 1) (update_width widths col_idx indent_len)

/-- The per-row dispatch of the `calculate_table_column_widths` outer loop. -/
def row_widths (o : FracturedJsonOptions) (indent : Nat) (item : JsonItem)
    (widths : List Nat) : List Nat :=
  match item.item_type with
  | .objectType => object_row_widths o indent item.children 0 widths
  | .arrayType => array_row_widths o indent item.children 0 widths
  | _ =>
    let value_len := calculate_value_display_length item + 2
    let indent_len := value_len + indent * o.indent_spaces
    match widths with
    | [] => []
    | w :: ws => max w indent_len :: ws

/-- The outer loop of `calculate_table_column_widths`. -/
def rows_widths (o : FracturedJsonOptions) (indent : Nat) :
    List JsonItem → List Nat → List Nat
  | [], widths => widths
  | item :: rest, widths => rows_widths o indent rest (row_widths o indent item widths)

/-- `calculate_table_column_widths` from formatter.rs. -/
def calculate_table_column_widths (items : List JsonItem)
    (indent : Nat) (o : FracturedJsonOptions) : List Nat :=
  match items with
  | [] => []
  | c0 :: _ => rows_widths o indent items (List.replicate (get_column_count c0) 0)

/-- The column loop of `format_table_array`: every cell but the last is
followed by `column_widths[col_idx].saturating_sub(value.len())` spaces, a
comma and optional comma padding; `column_widths[col_idx]` is a panicking
index, modelled by `List.get?`/`none`. -/
def table_row_cells (o : FracturedJsonOptions) (widths : List Nat) :
    List String → Nat → Option String
  | [], _ => some ""
  | [v], _ => some v
  | v :: rest, col_idx => do
    let w ← widths[col_idx]?
    let s ← table_row_cells o widths rest (col_idx + 1)
    some (v ++ write_spaces (w - byteLen v) ++ "," ++ (if o.comma_padding then " " else "") ++ s)

/-- The row loop of `format_table_array`. -/
def table_rows (o : FracturedJsonOptions) (indent : Nat) (widths : List Nat)
    (total : Nat) : List JsonItem → Nat → Option String
  | [], _ => some ""
  | child :: rest, i => do
    let cells ← table_row_cells o widths (get_column_values child) 0
    let tail ← table_rows o indent widths total rest (i + 1)
    let is_last := i = total - 1
    some (write_indent o (indent + 1) ++ cells ++
      (if ¬ is_last ∧ o.table_comma_placement = TableCommaPlacement.endOfLine then "," else "") ++
      o.eol_string ++ tail)

/-- `format_table_array` from formatter.rs. -/
def format_table_array (item : JsonItem) (o : FracturedJsonOptions)
    (indent : Nat) : Option String := do
  let widths := calculate_table_column_widths item.children (indent + 1) o
  let rows ← table_rows o indent widths item.children.length item.children 0
  some (write_indent o indent ++ "[" ++ o.eol_string ++ rows ++ write_indent o indent ++ "]")

/-! ## formatter.rs: `format_item` and the recursive renderers

Each Rust renderer's body is transcribed into the matching branch of
`format_item`, and each renderer's child loop is a helper function below,
so that the whole nest is structurally recursive.  `format_inline_value` is
inlined at its three call sites (see `format_inline_value_leaf` and the
standalone `format_inline_value` after the nest).
-/

/-- The non-container arms of `format_inline_value` from formatter.rs (its
`Array`/`Object` arm — a call to `format_item` — is inlined at the call
sites of `format_inline_value`). -/
def format_inline_value_leaf (o : FracturedJsonOptions) (item : JsonItem) : String :=
  match item.item_type with
  | .stringType => write_quotes item.value
  | .numberType => item.value
  | .trueType => "true"
  | .falseType => "false"
  | .nullType => "null"
  | .lineComment | .blockComment =>
    if o.comment_policy == CommentPolicy.preserve then item.value else ""
  | .blankLine => ""
  | .objectType | .arrayType => ""

mutual
/-- `format_item` from formatter.rs, with the bodies of
`format_inline_array`, `format_compact_array`, `format_inline_object`,
`format_table_object`, `format_expanded_array` and `format_expanded_object`
inlined into the corresponding branches (each labelled). -/
def format_item (o : FracturedJsonOptions) (indent : Nat) :
    JsonItem → Option String
  | itm@(.mk t _ v _ _ _ _ cs) =>
    match t with
    | .arrayType =>
      if should_inline itm o indent then do
        -- format_inline_array
        let body ←
          if !itm.is_empty then do
            let elems ← format_inline_children o 0 cs
            some ((if o.nested_bracket_padding then " " else "") ++ elems ++
              (if o.nested_bracket_padding then " " else ""))
          else some (if o.simple_bracket_padding then " " else "")
        some (write_indent o indent ++ "[" ++ body ++ "]")
      else if should_format_as_compact_array itm o then do
        -- format_compact_array
        let items_per_row := calculate_items_per_row itm o indent
        let body ← format_compact_children o indent items_per_row cs.length 0 0 cs
        some (write_indent o indent ++ "[" ++ o.eol_string ++ body ++
          write_indent o indent ++ "]")
      else if should_format_as_table itm o then
        format_table_array itm o indent
      else do
        -- format_expanded_array
        let should_align := !(o.number_list_alignment == NumberListAlignment.noAlignment) &&
          cs.all (fun c => c.item_type == JsonItemType.numberType)
        let all_numbers := if should_align then cs.map JsonItem.value else []
        let body ← format_expanded_array_children o indent should_align all_numbers
          itm.is_empty cs.length 0 cs
        some (write_indent o indent ++ "[" ++ o.eol_string ++ body ++
          write_indent o indent ++ "]")
    | .objectType =>
      if should_inline itm o indent then do
        -- format_inline_object
        let body ←
          if !itm.is_empty then do
            let has_properties := cs.any (fun c => !c.item_type.is_comment_or_blank)
            let elems ← format_inline_object_children o indent has_properties 0 cs
            some ((if o.nested_bracket_padding then " " else "") ++ elems ++
              (if o.nested_bracket_padding then " " else ""))
          else some (if o.simple_bracket_padding then " " else "")
        some (write_indent o indent ++ "\x7b" ++ body ++ "\x7d")
      else if should_format_as_table itm o then do
        -- format_table_object
        let max_name_len := ((cs.map (fun c => byteLen c.name)).max?).getD 0
        let padding := min max_name_len o.max_prop_name_padding
        let has_properties := cs.any (fun c => !c.item_type.is_comment_or_blank)
        let body ← format_table_object_children o indent padding has_properties cs.length 0 cs
        some (write_indent o indent ++ "\x7b" ++ o.eol_string ++ body ++
          write_indent o indent ++ "\x7d")
      else do
        -- format_expanded_object
        let has_properties := cs.any (fun c => !c.item_type.is_comment_or_blank)
        let body ← format_expanded_object_children o indent has_properties itm.is_empty
          cs.length 0 cs
        some (write_indent o indent ++ "\x7b" ++ o.eol_string ++ body ++
          write_indent o indent ++ "\x7d")
    | .stringType => some (write_indent o indent ++ write_quotes v)
    | .numberType => some (write_indent o indent ++ v)
    | .trueType => some (write_indent o indent ++ "true")
    | .falseType => some (write_indent o indent ++ "false")
    | .nullType => some (write_indent o indent ++ "null")
    | .lineComment =>
      some (if o.comment_policy == CommentPolicy.preserve then write_indent o indent ++ v else "")
    | .blockComment =>
      some (if o.comment_policy == CommentPolicy.preserve then write_indent o indent ++ v else "")
    | .blankLine => some o.eol_string

/-- The child loop of `format_inline_array` (separator before every child
but the first, then prefix comment, inline value, postfix comment). -/
def format_inline_children (o : FracturedJsonOptions) :
    Nat → List JsonItem → Option String
  | _, [] => some ""
  | i, c :: rest => do
    let v ← if c.item_type.is_structural then format_item o 0 c
      else some (format_inline_value_leaf o c)
    let tail ← format_inline_children o (i + 1) rest
    some ((if i > 0 then "," ++ (if o.comma_padding then " " else "") else "") ++
      write_pre_comment c o ++ v ++ write_post_comment c o ++ tail)

/-- The child loop of `format_inline_object` (standalone comments kept only
when the object has no properties; comment/blank children skipped when it
does). -/
def format_inline_object_children (o : FracturedJsonOptions) (indent : Nat)
    (has_properties : Bool) : Nat → List JsonItem → Option String
  | _, [] => some ""
  | i, c :: rest => do
    let tail ← format_inline_object_children o indent has_properties (i + 1) rest
    if !has_properties && c.item_type.is_comment then do
      let v ← if c.item_type.is_structural then format_item o 0 c
        else some (format_inline_value_leaf o c)
      some ((if i > 0 then "," ++ (if o.comma_padding then " " else "") else "") ++ v ++ tail)
    else if has_properties && c.item_type.is_comment_or_blank then some tail
    else do
      let v ← if c.item_type.is_structural then format_item o 0 c
        else some (format_inline_value_leaf o c)
      some ((if i > 0 then "," ++ (if o.comma_padding then " " else "") else "") ++
        write_pre_comment c o ++ write_quoted_property_name c.name ++ ":" ++
        (if o.colon_padding then " " else "") ++ write_mid_comment c o indent ++ v ++
        write_post_comment c o ++ tail)

/-- The child loop of `format_compact_array`: an extra `,` + line break at
every row boundary (`row_idx > current_row`), then indentation, prefix
comment, inline value, postfix comment, a `,` (+ padding) unless the child
is last overall, and a line break after every child. -/
def format_compact_children (o : FracturedJsonOptions) (indent items_per_row total : Nat) :
    Nat → Nat → List JsonItem → Option String
  | _, _, [] => some ""
  | i, current_row, c :: rest => do
    let row_idx := i / items_per_row
    let v ← if c.item_type.is_structural then format_item o 0 c
      else some (format_inline_value_leaf o c)
    let tail ← format_compact_children o indent items_per_row total (i + 1)
      (if row_idx > current_row then row_idx else current_row) rest
    some ((if row_idx > current_row then "," ++ o.eol_string else "") ++
      write_indent o (indent + 1) ++ write_pre_comment c o ++ v ++ write_post_comment c o ++
      (if i < total - 1 then "," ++ (if o.comma_padding then " " else "") else "") ++
      o.eol_string ++ tail)

/-- The child loop of `format_table_object` (property-name padding up to
`padding`, recursion into `format_item` for the value). -/
def format_table_object_children (o : FracturedJsonOptions) (indent padding : Nat)
    (has_properties : Bool) (total : Nat) : Nat → List JsonItem → Option String
  | _, [] => some ""
  | i, c :: rest => do
    let tail ← format_table_object_children o indent padding has_properties total (i + 1) rest
    if !has_properties && c.item_type.is_comment then do
      let v ← format_item o (indent + 1) c
      some (write_indent o (indent + 1) ++ v ++ o.eol_string ++ tail)
    else if has_properties && c.item_type.is_comment_or_blank then some tail
    else do
      let v ← format_item o (indent + 1) c
      let name_part :=
        if o.colon_before_prop_name_padding then write_quoted_property_name c.name ++ ":"
        else write_quoted_property_name c.name ++
          write_spaces (padding - byteLen c.name) ++ ":"
      some (write_indent o (indent + 1) ++ write_pre_comment c o ++ name_part ++
        (if o.colon_padding then " " else "") ++ write_mid_comment c o (indent + 1) ++ v ++
        write_post_comment c o ++
        (if !(i == total - 1) || o.allow_trailing_commas then
          "," ++ (if o.comma_padding then " " else "") else "") ++
        o.eol_string ++ tail)

/-- The child loop of `format_expanded_array` (indentation, prefix comment,
aligned number text or recursive `format_item`, postfix comment, comma
unless last — or always with `allow_trailing_commas` — and a line break). -/
def format_expanded_array_children (o : FracturedJsonOptions) (indent : Nat)
    (should_align : Bool) (all_numbers : List String) (arr_is_empty : Bool)
    (total : Nat) : Nat → List JsonItem → Option String
  | _, [] => some ""
  | i, c :: rest => do
    let v ← if should_align && (c.item_type == JsonItemType.numberType) then
        some (format_number_aligned c.value o all_numbers)
      else format_item o (indent + 1) c
    let tail ← format_expanded_array_children o indent should_align all_numbers
      arr_is_empty total (i + 1) rest
    some (write_indent o (indent + 1) ++ write_pre_comment c o ++ v ++ write_post_comment c o ++
      (if !(i == total - 1) || (o.allow_trailing_commas && !arr_is_empty) then
        "," ++ (if o.comma_padding then " " else "") else "") ++
      o.eol_string ++ tail)

/-- The child loop of `format_expanded_object` (no property-name padding,
recursion into `format_item` for the value). -/
def format_expanded_object_children (o : FracturedJsonOptions) (indent : Nat)
    (has_properties obj_is_empty : Bool) (total : Nat) : Nat → List JsonItem → Option String
  | _, [] => some ""
  | i, c :: rest => do
    let tail ← format_expanded_object_children o indent has_properties obj_is_empty
      total (i + 1) rest
    if !has_properties && c.item_type.is_comment then do
      let v ← format_item o (indent + 1) c
      some (write_indent o (indent + 1) ++ v ++ o.eol_string ++ tail)
    else if has_properties && c.item_type.is_comment_or_blank then some tail
    else do
      let v ← format_item o (indent + 1) c
      some (write_indent o (indent + 1) ++ write_pre_comment c o ++
        write_quoted_property_name c.name ++ ":" ++
        (if o.colon_padding then " " else "") ++ write_mid_comment c o (indent + 1) ++ v ++
        write_post_comment c o ++
        (if !(i == total - 1) || (o.allow_trailing_commas && !obj_is_empty) then
          "," ++ (if o.comma_padding then " " else "") else "") ++
        o.eol_string ++ tail)
end

/-- `format_inline_value` from formatter.rs, assembled from `format_item`
and `format_inline_value_leaf` (this is the function the child loops above
inline). -/
def format_inline_value (o : FracturedJsonOptions) (indent : Nat)
    (item : JsonItem) : Option String :=
  if item.item_type.is_structural then format_item o indent item
  else some (format_inline_value_leaf o item)

/-- `format` from formatter.rs, the core entry point (the buffer capacity
estimate does not affect the produced text and is not modelled). -/
def format (item : JsonItem) (o : FracturedJsonOptions) : Option String :=
  format_item o 0 item

/-! ## Specification-side predicates

These definitions transcribe the words of the specification (not the
source); they exist to be compared against the source-derived functions.
-/

mutual
/-- Spec wording (claims about comments in a subtree): the subtree of a
node contains a comment — a standalone comment node anywhere, or an
attached prefix/middle/postfix comment on the node or any descendant. -/
def spec_subtree_has_comment : JsonItem → Bool
  | .mk t _ _ pc mc qc _ cs =>
    pc.isSome || mc.isSome || qc.isSome || t.is_comment || spec_list_has_comment cs

/-- `spec_subtree_has_comment` over a list of children. -/
def spec_list_has_comment : List JsonItem → Bool
  | [] => false
  | c :: cs => spec_subtree_has_comment c || spec_list_has_comment cs
end

mutual
/-- Some node strictly below this one carries an attached
prefix/middle/postfix comment. -/
def proper_subtree_has_attached_comment : JsonItem → Bool
  | .mk _ _ _ _ _ _ _ cs => attached_comment_in_list cs

/-- Some node in this list, or below one, carries an attached comment. -/
def attached_comment_in_list : List JsonItem → Bool
  | [] => false
  | c :: cs =>
    c.has_comments || proper_subtree_has_attached_comment c || attached_comment_in_list cs
end

mutual
/-- The data-model invariant: only Object/Array nodes have children. -/
def wf : JsonItem → Bool
  | .mk t _ _ _ _ _ _ cs => (t.is_structural || cs.isEmpty) && wf_list cs

/-- `wf` for every member of a list. -/
def wf_list : List JsonItem → Bool
  | [] => true
  | c :: cs => wf c && wf_list cs
end

mutual
/-- No array in the subtree has rows wide enough to drive the
`column_widths[col_idx]` index in `format_table_array` out of bounds:
every child's column count is at most the first child's plus one. -/
def table_safe : JsonItem → Bool
  | .mk _ _ _ _ _ _ _ cs =>
    (match cs with
     | [] => true
     | c0 :: _ => cs.all (fun c => get_column_count c ≤ get_column_count c0 + 1)) &&
    table_safe_list cs

/-- `table_safe` for every member of a list. -/
def table_safe_list : List JsonItem → Bool
  | [] => true
  | c :: cs => table_safe c && table_safe_list cs
end

mutual
/-- Rewrite the text of every attached prefix/middle/postfix comment in the
tree by `f`, keeping presence/absence and everything else unchanged. -/
def map_attached_comments (f : String → String) : JsonItem → JsonItem
  | .mk t n v pc mc qc ls cs =>
    .mk t n v (pc.map f) (mc.map f) (qc.map f) ls (map_attached_comments_list f cs)

/-- `map_attached_comments` over a list of children. -/
def map_attached_comments_list (f : String → String) : List JsonItem → List JsonItem
  | [] => []
  | c :: cs => map_attached_comments f c :: map_attached_comments_list f cs
end

/-! ## Concrete input trees and options used by the claims -/

/-- A comment-free Number leaf. -/
def leafNum (nm v : String) : JsonItem := .mk .numberType nm v none none none false []

/-- A comment-free String leaf. -/
def leafStr (nm v : String) : JsonItem := .mk .stringType nm v none none none false []

/-- The array `[1, 2, 3, 4]` of one-digit Numbers. -/
def arrC4 : JsonItem := .mk .arrayType "" "" none none none false
  [leafNum "" "1", leafNum "" "2", leafNum "" "3", leafNum "" "4"]

/-- Default options with a 13-byte line budget (inline is rejected for
`arrC4`, compact-array is chosen). -/
def opts13 : FracturedJsonOptions := { default_options with max_total_line_length := 13 }

/-- Default options with a zero line budget. -/
def opts0 : FracturedJsonOptions := { default_options with max_total_line_length := 0 }

/-- Default options with `max_table_row_complexity` raised to 2, making
arrays of flat objects table-eligible. -/
def optsT2 : FracturedJsonOptions := { default_options with max_table_row_complexity := 2 }

/-- The object `{"x": 1, "y": 2}`. -/
def objRow1 : JsonItem := .mk .objectType "" "" none none none false
  [leafNum "x" "1", leafNum "y" "2"]

/-- The object `{"x": 10, "y": 20}`. -/
def objRow2 : JsonItem := .mk .objectType "" "" none none none false
  [leafNum "x" "10", leafNum "y" "20"]

/-- The array `[{"x":1,"y":2},{"x":10,"y":20}]`. -/
def arrC5 : JsonItem := .mk .arrayType "" "" none none none false [objRow1, objRow2]

/-- A one-member object row `{"a": 1}`. -/
def ragRow1 : JsonItem := .mk .objectType "" "" none none none false [leafNum "a" "1"]

/-- A three-member object row `{"b": 2, "c": 3, "d": 4}`. -/
def ragRow2 : JsonItem := .mk .objectType "" "" none none none false
  [leafNum "b" "2", leafNum "c" "3", leafNum "d" "4"]

/-- A table-eligible array whose second row has two more columns than the
first: rendering it indexes `column_widths` out of bounds. -/
def raggedArr : JsonItem := .mk .arrayType "" "" none none none false [ragRow1, ragRow2]

/-- `[1, 2, 3, 4]` with an attached prefix comment on the first element. -/
def arrC2 : JsonItem := .mk .arrayType "" "" none none none false
  [.mk .numberType "" "1" (some "// c") none none false [],
   leafNum "" "2", leafNum "" "3", leafNum "" "4"]

/-- A two-element array carrying its own attached prefix comment. -/
def arrOwn : JsonItem := .mk .arrayType "" "" (some "// own") none none false
  [leafNum "" "1", leafNum "" "2"]

/-- Object member `"r1": {"a": 1}`. -/
def objTblRow1 : JsonItem := .mk .objectType "r1" "" none none none false [leafNum "a" "1"]

/-- Object member `"r2": {"a": 2}` with an attached postfix comment. -/
def objTblRow2 : JsonItem := .mk .objectType "r2" "" none none (some "// cc") false
  [leafNum "a" "2"]

/-- An object with uniform object members, one of which carries a comment. -/
def objTbl : JsonItem := .mk .objectType "" "" none none none false [objTblRow1, objTblRow2]

/-- An object carrying its own attached prefix comment over a comment-free
Number child. -/
def objC3 : JsonItem := .mk .objectType "" "" (some "// c") none none false [leafNum "k" "1"]

/-- `{"key": "value" /* c */}`: the member carries an attached postfix
comment. -/
def objC7 : JsonItem := .mk .objectType "" "" none none none false
  [.mk .stringType "key" "value" none none (some "/* c */") false []]

/-- `{"key": "value"}`: `objC7` with the comment deleted. -/
def strippedC7 : JsonItem := .mk .objectType "" "" none none none false [leafStr "key" "value"]

/-- Default options with comment policy `Remove`. -/
def removeOpts : FracturedJsonOptions := { default_options with comment_policy := .remove }

/-- The object `{"a": 1, "b": 2}`. -/
def objC8 : JsonItem := .mk .objectType "" "" none none none false
  [leafNum "a" "1", leafNum "b" "2"]

/-- A one-character string consisting of the control character U+0001. -/
def ctrlStr : String := String.mk [Char.ofNat 1]

/-- The seven characters that `escape_string` gives two-character escapes. -/
def char_simple_escape (c : Char) : Bool :=
  c = '\\' || c = '"' || c = '\n' || c = '\t' || c = '\r' || c = '\u0008' || c = '\u000c'

/-- Characters sent to the `\u00XX` hex branch of `escape_string`. -/
def char_hex_escaped (c : Char) : Bool :=
  !char_simple_escape c && c ≤ '\u001f'

/-- Byte length a character contributes to the escaped string. -/
def escaped_char_len (c : Char) : Nat := ((escape_char c).map Char.utf8Size).sum

/-! ## Helper lemmas -/

theorem char_needs_escape_eq (c : Char) :
    char_needs_escape c = (char_simple_escape c || char_hex_escaped c) := by
  show (char_simple_escape c || decide (c ≤ '\u001f')) =
    (char_simple_escape c || (!char_simple_escape c && decide (c ≤ '\u001f')))
  cases char_simple_escape c <;> simp

theorem utf8Size_one_of_ctrl (c : Char) (h : c ≤ '\u001f') : c.utf8Size = 1 := by
  have h1 : c.val ≤ Char.val '\u001f' := Char.le_def.mp h
  have h2 : c.val ≤ (0x7F : UInt32) := by
    rw [UInt32.le_def, BitVec.le_def] at h1 ⊢
    have h31 : (Char.val '\u001f').toBitVec.toNat = 31 := by decide
    have h127 : (0x7F : UInt32).toBitVec.toNat = 127 := by decide
    rw [h31] at h1
    rw [h127]
    omega
  have hform : Char.utf8Size c =
      if c.val ≤ (0x7F : UInt32) then 1
      else if c.val ≤ (0x7FF : UInt32) then 2
      else if c.val ≤ (0xFFFF : UInt32) then 3
      else 4 := rfl
  rw [hform, if_pos h2]

theorem hex_digit_utf8Size (i : Nat) : (HEX.getD i '0').utf8Size = 1 := by
  have hall : ∀ a ∈ HEX, a.utf8Size = 1 := by decide
  unfold List.getD
  cases h : HEX.get? i with
  | none => decide
  | some a =>
    rw [Option.getD_some]
    exact hall a (List.get?_mem h)

theorem escaped_char_len_simple (c : Char) (h : char_simple_escape c = true) :
    escaped_char_len c = c.utf8Size + 1 := by
  simp only [char_simple_escape, Bool.or_eq_true, decide_eq_true_eq] at h
  rcases h with ((((((h | h) | h) | h) | h) | h) | h) <;> subst h <;> decide

theorem escaped_char_len_hex (c : Char) (hs : char_simple_escape c = false)
    (hx : char_hex_escaped c = true) : escaped_char_len c = c.utf8Size + 5 := by
  have hle : c ≤ '\u001f' := by
    unfold char_hex_escaped at hx
    rw [hs] at hx
    simpa using hx
  have hs' := hs
  simp only [char_simple_escape, Bool.or_eq_false_iff, decide_eq_false_iff_not] at hs'
  obtain ⟨⟨⟨⟨⟨⟨n1, n2⟩, n3⟩, n4⟩, n5⟩, n6⟩, n7⟩ := hs'
  unfold escaped_char_len escape_char
  rw [if_neg n1, if_neg n2, if_neg n3, if_neg n4, if_neg n5, if_neg n6, if_neg n7,
    if_pos hle]
  simp only [List.map, List.sum_cons, List.sum_nil]
  rw [utf8Size_one_of_ctrl c hle, hex_digit_utf8Size, hex_digit_utf8Size]
  decide

theorem escaped_char_len_plain (c : Char) (hs : char_simple_escape c = false)
    (hx : char_hex_escaped c = false) : escaped_char_len c = c.utf8Size := by
  have hle : ¬ c ≤ '\u001f' := by
    unfold char_hex_escaped at hx
    rw [hs] at hx
    simpa using hx
  have hs' := hs
  simp only [char_simple_escape, Bool.or_eq_false_iff, decide_eq_false_iff_not] at hs'
  obtain ⟨⟨⟨⟨⟨⟨n1, n2⟩, n3⟩, n4⟩, n5⟩, n6⟩, n7⟩ := hs'
  unfold escaped_char_len escape_char
  rw [if_neg n1, if_neg n2, if_neg n3, if_neg n4, if_neg n5, if_neg n6, if_neg n7,
    if_neg hle]
  simp

theorem escaped_char_len_eq (c : Char) :
    escaped_char_len c =
      c.utf8Size +
        (if char_simple_escape c then 1 else if char_hex_escaped c then 5 else 0) := by
  cases hs : char_simple_escape c
  · cases hx : char_hex_escaped c
    · rw [escaped_char_len_plain c hs hx]; simp
    · rw [escaped_char_len_hex c hs hx]; simp
  · rw [escaped_char_len_simple c hs]; simp

theorem should_inline_eq_false_of_comments (item : JsonItem) (o : FracturedJsonOptions)
    (indent : Nat) (h : item.has_comments = true ∨ requires_multiple_lines item = true) :
    should_inline item o indent = false := by
  unfold should_inline
  rcases h with h | h
  · cases hR : requires_multiple_lines item <;> simp [hR, h]
  · simp [h]

theorem should_compact_eq_false_of_comments (item : JsonItem) (o : FracturedJsonOptions)
    (h : item.has_comments = true) : should_format_as_compact_array item o = false := by
  unfold should_format_as_compact_array
  simp [h]

theorem should_table_eq_false_of_rml (item : JsonItem) (o : FracturedJsonOptions)
    (h1 : item.item_type = JsonItemType.arrayType)
    (h2 : requires_multiple_lines item = true) : should_format_as_table item o = false := by
  unfold should_format_as_table
  simp [h1, h2]

theorem complexity_children_max_eq (cs : List JsonItem) :
    complexity_children_max cs = (cs.map complexity).foldr max 0 := by
  induction cs with
  | nil => rfl
  | cons c cs ih => simp [complexity_children_max, ih]

theorem le_complexity_children_max (c : JsonItem) (cs : List JsonItem) (h : c ∈ cs) :
    complexity c ≤ complexity_children_max cs := by
  induction cs with
  | nil => cases h
  | cons d cs ih =>
    rcases List.mem_cons.mp h with h | h
    · subst h; exact Nat.le_max_left _ _
    · exact le_trans (ih h) (Nat.le_max_right _ _)

theorem mk_append (a b : List Char) : String.mk a ++ String.mk b = String.mk (a ++ b) := rfl

theorem write_spaces_chunks_eq (k : Nat) :
    write_spaces_chunks k = String.mk (List.replicate (32 * k) ' ') := by
  induction k with
  | zero => rfl
  | succ k ih =>
    show SPACES ++ write_spaces_chunks k = _
    rw [ih]
    have hS : SPACES = String.mk (List.replicate 32 ' ') := by decide
    rw [hS, mk_append, ← List.replicate_add]
    suffices h : 32 + 32 * k = 32 * (k + 1) by rw [h]
    omega

theorem write_spaces_eq (n : Nat) : write_spaces n = String.mk (List.replicate n ' ') := by
  unfold write_spaces
  rw [write_spaces_chunks_eq]
  have hS : SPACES.data = List.replicate 32 ' ' := by decide
  rw [hS, List.take_replicate, mk_append, ← List.replicate_add]
  suffices h : 32 * (n / 32) + min (n % 32) 32 = n by rw [h]
  omega

theorem byteLen_mk (l : List Char) : byteLen (String.mk l) = (l.map Char.utf8Size).sum := rfl

theorem byteLen_append (a b : String) : byteLen (a ++ b) = byteLen a + byteLen b := by
  cases a with
  | mk la =>
    cases b with
    | mk lb =>
      show ((la ++ lb).map Char.utf8Size).sum =
        (la.map Char.utf8Size).sum + (lb.map Char.utf8Size).sum
      simp [List.map_append]

theorem flatMap_escaped_sum (l : List Char) :
    ((l.flatMap escape_char).map Char.utf8Size).sum = (l.map escaped_char_len).sum := by
  induction l with
  | nil => rfl
  | cons c l ih =>
    simp only [List.flatMap_cons, List.map_append, List.sum_append, List.map, List.sum_cons, ih]
    rfl

theorem escaped_len_split (l : List Char) :
    (l.map escaped_char_len).sum =
      (l.map Char.utf8Size).sum +
        (l.map (fun c =>
          if char_simple_escape c then 1 else if char_hex_escaped c then 5 else 0)).sum := by
  induction l with
  | nil => rfl
  | cons c l ih =>
    simp only [List.map, List.sum_cons, ih, escaped_char_len_eq]
    omega

theorem extra_sum_eq_filter (l : List Char) (hx : ∀ c ∈ l, char_hex_escaped c = false) :
    (l.map (fun c =>
      if char_simple_escape c then 1 else if char_hex_escaped c then 5 else 0)).sum =
      (l.filter char_needs_escape).length := by
  induction l with
  | nil => rfl
  | cons c l ih =>
    have hxc := hx c (List.mem_cons_self _ _)
    have ih' := ih (fun d hd => hx d (List.mem_cons_of_mem _ hd))
    simp only [List.map, List.sum_cons, List.filter_cons, char_needs_escape_eq c, hxc]
    cases hs : char_simple_escape c
    · simp [hxc, ih']
    · simp [ih']
      omega

theorem length_le_utf8_sum (l : List Char) : l.length ≤ (l.map Char.utf8Size).sum := by
  induction l with
  | nil => simp
  | cons c l ih =>
    simp only [List.length_cons, List.map, List.sum_cons]
    have := Char.utf8Size_pos c
    omega

theorem wf_list_mem (cs : List JsonItem) (h : wf_list cs = true) :
    ∀ c ∈ cs, wf c = true := by
  induction cs with
  | nil => intro c hc; cases hc
  | cons d cs ih =>
    have h' := h
    simp only [wf_list, Bool.and_eq_true] at h'
    intro c hc
    rcases List.mem_cons.mp hc with hc | hc
    · subst hc; exact h'.1
    · exact ih h'.2 c hc

theorem proper_subtree_false_of_leaf (c : JsonItem) (hwf : wf c = true)
    (hns : c.item_type.is_structural = false) :
    proper_subtree_has_attached_comment c = false := by
  cases c with
  | mk t n v pc mc qc ls cs =>
    simp only [wf, Bool.and_eq_true, Bool.or_eq_true] at hwf
    simp only [JsonItem.item_type] at hns
    rcases hwf.1 with h | h
    · rw [hns] at h; cases h
    · have : cs = [] := List.isEmpty_iff.mp h
      subst this
      rfl

theorem rml_list_characterization (l : List JsonItem)
    (hpt : ∀ c ∈ l, wf c = true →
      requires_multiple_lines c =
        (c.item_type.is_structural && proper_subtree_has_attached_comment c))
    (hwf : wf_list l = true) :
    (children_have_comments l || children_require_multiple_lines l) =
      attached_comment_in_list l := by
  induction l with
  | nil => rfl
  | cons c l' ih =>
    simp only [wf_list, Bool.and_eq_true] at hwf
    have h1 := hpt c (List.mem_cons_self _ _) hwf.1
    have h2 : (c.item_type.is_structural && proper_subtree_has_attached_comment c) =
        proper_subtree_has_attached_comment c := by
      cases hs : c.item_type.is_structural
      · rw [proper_subtree_false_of_leaf c hwf.1 hs]
        rfl
      · rw [Bool.true_and]
    have ih' := ih (fun d hd => hpt d (List.mem_cons_of_mem _ hd)) hwf.2
    rw [children_have_comments, children_require_multiple_lines, attached_comment_in_list,
      h1, h2, ← ih']
    simp only [Bool.or_assoc, Bool.or_comm, Bool.or_left_comm]

theorem table_row_cells_isSome (o : FracturedJsonOptions) (widths : List Nat) :
    ∀ (values : List String) (k : Nat), values.length + k ≤ widths.length + 1 →
      (table_row_cells o widths values k).isSome = true := by
  intro values
  induction values with
  | nil => intro k _; simp [table_row_cells]
  | cons v rest ih =>
    intro k h
    cases rest with
    | nil => simp [table_row_cells]
    | cons v2 rest2 =>
      have hk : k < widths.length := by
        simp only [List.length_cons] at h
        omega
      have hrec := ih (k + 1) (by simp only [List.length_cons] at h ⊢; omega)
      obtain ⟨s, hs⟩ := Option.isSome_iff_exists.mp hrec
      simp only [table_row_cells, List.getElem?_eq_getElem hk, hs]
      simp

theorem update_width_length (w : List Nat) (i n : Nat) :
    (update_width w i n).length = w.length := by
  unfold update_width
  split
  · simp
  · rfl

theorem object_row_widths_length (o : FracturedJsonOptions) (indent : Nat) :
    ∀ (cs : List JsonItem) (i : Nat) (w : List Nat),
      (object_row_widths o indent cs i w).length = w.length := by
  intro cs
  induction cs with
  | nil => intro i w; rfl
  | cons c cs ih =>
    intro i w
    show (object_row_widths o indent cs (i + 1) _).length = _
    rw [ih, update_width_length]

theorem array_row_widths_length (o : FracturedJsonOptions) (indent : Nat) :
    ∀ (cs : List JsonItem) (i : Nat) (w : List Nat),
      (array_row_widths o indent cs i w).length = w.length := by
  intro cs
  induction cs with
  | nil => intro i w; rfl
  | cons c cs ih =>
    intro i w
    show (array_row_widths o indent cs (i + 1) _).length = _
    rw [ih, update_width_length]

theorem row_widths_length (o : FracturedJsonOptions) (indent : Nat) (item : JsonItem)
    (w : List Nat) : (row_widths o indent item w).length = w.length := by
  unfold row_widths
  cases item.item_type <;>
    first
      | exact object_row_widths_length o indent item.children 0 w
      | exact array_row_widths_length o indent item.children 0 w
      | (cases w <;> rfl)

theorem rows_widths_length (o : FracturedJsonOptions) (indent : Nat) :
    ∀ (items : List JsonItem) (w : List Nat),
      (rows_widths o indent items w).length = w.length := by
  intro items
  induction items with
  | nil => intro w; rfl
  | cons item rest ih =>
    intro w
    show (rows_widths o indent rest _).length = _
    rw [ih, row_widths_length]

theorem calculate_table_column_widths_length (c0 : JsonItem) (rest : List JsonItem)
    (indent : Nat) (o : FracturedJsonOptions) :
    (calculate_table_column_widths (c0 :: rest) indent o).length = get_column_count c0 := by
  unfold calculate_table_column_widths
  rw [rows_widths_length]
  simp

theorem get_column_values_length (c : JsonItem) :
    (get_column_values c).length = get_column_count c := by
  unfold get_column_values get_column_count
  cases c.item_type <;> simp

theorem table_rows_isSome (o : FracturedJsonOptions) (indent : Nat) (widths : List Nat)
    (total : Nat) :
    ∀ (rows : List JsonItem) (i : Nat),
      (∀ c ∈ rows, (get_column_values c).length ≤ widths.length + 1) →
      (table_rows o indent widths total rows i).isSome = true := by
  intro rows
  induction rows with
  | nil => intro i _; simp [table_rows]
  | cons child rest ih =>
    intro i h
    have hcells := table_row_cells_isSome o widths (get_column_values child) 0
      (by have := h child (List.mem_cons_self _ _); omega)
    obtain ⟨cl, hcl⟩ := Option.isSome_iff_exists.mp hcells
    have hrest := ih (i + 1) (fun c hc => h c (List.mem_cons_of_mem _ hc))
    obtain ⟨tl, htl⟩ := Option.isSome_iff_exists.mp hrest
    simp only [table_rows, hcl, htl]
    simp

theorem table_safe_list_mem (cs : List JsonItem) (h : table_safe_list cs = true) :
    ∀ c ∈ cs, table_safe c = true := by
  induction cs with
  | nil => intro c hc; cases hc
  | cons d cs ih =>
    have h' := h
    simp only [table_safe_list, Bool.and_eq_true] at h'
    intro c hc
    rcases List.mem_cons.mp hc with hc | hc
    · subst hc; exact h'.1
    · exact ih h'.2 c hc

theorem format_table_array_total (itm : JsonItem) (o : FracturedJsonOptions) (indent : Nat)
    (hsafe : ∀ c0 ∈ itm.children.head?, ∀ c ∈ itm.children,
      get_column_count c ≤ get_column_count c0 + 1) :
    (format_table_array itm o indent).isSome = true := by
  unfold format_table_array
  cases hcs : itm.children with
  | nil => simp [table_rows]
  | cons c0 rest =>
    have hrows := table_rows_isSome o indent
      (calculate_table_column_widths (c0 :: rest) (indent + 1) o)
      (c0 :: rest).length (c0 :: rest) 0
      (by
        intro c hc
        rw [get_column_values_length, calculate_table_column_widths_length]
        have := hsafe c0 (by rw [hcs]; rfl) c (by rw [hcs]; exact hc)
        omega)
    obtain ⟨r, hr⟩ := Option.isSome_iff_exists.mp hrows
    simp only [hcs, hr]
    simp

theorem format_inline_children_total (o : FracturedJsonOptions) :
    ∀ (l : List JsonItem) (i : Nat),
      (∀ c ∈ l, ∀ ind, (format_item o ind c).isSome = true) →
      (format_inline_children o i l).isSome = true := by
  intro l
  induction l with
  | nil => intro i _; rfl
  | cons c rest ih =>
    intro i h
    obtain ⟨tl, htl⟩ := Option.isSome_iff_exists.mp
      (ih (i + 1) (fun d hd => h d (List.mem_cons_of_mem _ hd)))
    obtain ⟨v, hv⟩ := Option.isSome_iff_exists.mp (h c (List.mem_cons_self _ _) 0)
    simp only [format_inline_children, htl]
    split_ifs <;> simp [hv]

theorem format_inline_object_children_total (o : FracturedJsonOptions) (indent : Nat)
    (hp : Bool) :
    ∀ (l : List JsonItem) (i : Nat),
      (∀ c ∈ l, ∀ ind, (format_item o ind c).isSome = true) →
      (format_inline_object_children o indent hp i l).isSome = true := by
  intro l
  induction l with
  | nil => intro i _; rfl
  | cons c rest ih =>
    intro i h
    obtain ⟨tl, htl⟩ := Option.isSome_iff_exists.mp
      (ih (i + 1) (fun d hd => h d (List.mem_cons_of_mem _ hd)))
    obtain ⟨v, hv⟩ := Option.isSome_iff_exists.mp (h c (List.mem_cons_self _ _) 0)
    simp only [format_inline_object_children, htl]
    split_ifs <;> simp [hv]

theorem format_compact_children_total (o : FracturedJsonOptions)
    (indent items_per_row total : Nat) :
    ∀ (l : List JsonItem) (i cur : Nat),
      (∀ c ∈ l, ∀ ind, (format_item o ind c).isSome = true) →
      (format_compact_children o indent items_per_row total i cur l).isSome = true := by
  intro l
  induction l with
  | nil => intro i cur _; rfl
  | cons c rest ih =>
    intro i cur h
    obtain ⟨tl1, htl1⟩ := Option.isSome_iff_exists.mp
      (ih (i + 1) (i / items_per_row) (fun d hd => h d (List.mem_cons_of_mem _ hd)))
    obtain ⟨tl2, htl2⟩ := Option.isSome_iff_exists.mp
      (ih (i + 1) cur (fun d hd => h d (List.mem_cons_of_mem _ hd)))
    obtain ⟨v, hv⟩ := Option.isSome_iff_exists.mp (h c (List.mem_cons_self _ _) 0)
    simp only [format_compact_children]
    split_ifs <;> simp [hv, htl1, htl2]

theorem format_table_object_children_total (o : FracturedJsonOptions)
    (indent padding : Nat) (hp : Bool) (total : Nat) :
    ∀ (l : List JsonItem) (i : Nat),
      (∀ c ∈ l, ∀ ind, (format_item o ind c).isSome = true) →
      (format_table_object_children o indent padding hp total i l).isSome = true := by
  intro l
  induction l with
  | nil => intro i _; rfl
  | cons c rest ih =>
    intro i h
    obtain ⟨tl, htl⟩ := Option.isSome_iff_exists.mp
      (ih (i + 1) (fun d hd => h d (List.mem_cons_of_mem _ hd)))
    obtain ⟨v, hv⟩ := Option.isSome_iff_exists.mp (h c (List.mem_cons_self _ _) (indent + 1))
    simp only [format_table_object_children, htl]
    split_ifs <;> simp [hv]

theorem format_expanded_array_children_total (o : FracturedJsonOptions) (indent : Nat)
    (sa : Bool) (nums : List String) (ae : Bool) (total : Nat) :
    ∀ (l : List JsonItem) (i : Nat),
      (∀ c ∈ l, ∀ ind, (format_item o ind c).isSome = true) →
      (format_expanded_array_children o indent sa nums ae total i l).isSome = true := by
  intro l
  induction l with
  | nil => intro i _; rfl
  | cons c rest ih =>
    intro i h
    obtain ⟨tl, htl⟩ := Option.isSome_iff_exists.mp
      (ih (i + 1) (fun d hd => h d (List.mem_cons_of_mem _ hd)))
    obtain ⟨v, hv⟩ := Option.isSome_iff_exists.mp (h c (List.mem_cons_self _ _) (indent + 1))
    simp only [format_expanded_array_children, htl]
    split_ifs <;> simp [hv]

theorem format_expanded_object_children_total (o : FracturedJsonOptions) (indent : Nat)
    (hp oe : Bool) (total : Nat) :
    ∀ (l : List JsonItem) (i : Nat),
      (∀ c ∈ l, ∀ ind, (format_item o ind c).isSome = true) →
      (format_expanded_object_children o indent hp oe total i l).isSome = true := by
  intro l
  induction l with
  | nil => intro i _; rfl
  | cons c rest ih =>
    intro i h
    obtain ⟨tl, htl⟩ := Option.isSome_iff_exists.mp
      (ih (i + 1) (fun d hd => h d (List.mem_cons_of_mem _ hd)))
    obtain ⟨v, hv⟩ := Option.isSome_iff_exists.mp (h c (List.mem_cons_self _ _) (indent + 1))
    simp only [format_expanded_object_children, htl]
    split_ifs <;> simp [hv]

theorem isSome_bind_of {α β : Type} (x : Option α) (f : α → Option β)
    (hx : x.isSome = true) (hf : ∀ a, (f a).isSome = true) : (x.bind f).isSome = true := by
  cases x with
  | none => cases hx
  | some a => exact hf a

theorem format_item_total (o : FracturedJsonOptions) :
    ∀ item, table_safe item = true → ∀ indent, (format_item o indent item).isSome = true := by
  intro item
  induction item using JsonItem.ind with
  | h t n v pc mc qc ls cs ih =>
    intro hsafe indent
    have hsafe' := hsafe
    simp only [table_safe, Bool.and_eq_true] at hsafe'
    have hfmt : ∀ c ∈ cs, ∀ ind, (format_item o ind c).isSome = true :=
      fun c hc ind => ih c hc (table_safe_list_mem cs hsafe'.2 c hc) ind
    have hhead : ∀ c0 ∈ (JsonItem.mk t n v pc mc qc ls cs).children.head?,
        ∀ c ∈ (JsonItem.mk t n v pc mc qc ls cs).children,
          get_column_count c ≤ get_column_count c0 + 1 := by
      show ∀ c0 ∈ cs.head?, ∀ c ∈ cs, _
      cases cs with
      | nil => intro c0 hc0; cases hc0
      | cons c0' rest =>
        intro c0 hc0 c hc
        have he : c0' = c0 := by simpa using hc0
        subst he
        have hall := hsafe'.1
        rw [List.all_eq_true] at hall
        have := hall c hc
        simpa using this
    cases t with
    | arrayType =>
      simp only [format_item]
      split
      · -- format_inline_array
        split
        · refine isSome_bind_of _ _ ?_ ?_
          · exact format_inline_children_total o cs 0 hfmt
          · exact fun a => rfl
        · rfl
      · split
        · -- format_compact_array
          refine isSome_bind_of _ _ ?_ ?_
          · exact format_compact_children_total o indent _ cs.length cs 0 0 hfmt
          · exact fun a => rfl
        · split
          · -- format_table_array
            exact format_table_array_total _ o indent hhead
          · -- format_expanded_array
            refine isSome_bind_of _ _ ?_ ?_
            · exact format_expanded_array_children_total o indent _ _ _ cs.length cs 0 hfmt
            · exact fun a => rfl
    | objectType =>
      simp only [format_item]
      split
      · -- format_inline_object
        split
        · refine isSome_bind_of _ _ ?_ ?_
          · exact format_inline_object_children_total o indent _ cs 0 hfmt
          · exact fun a => rfl
        · rfl
      · split
        · -- format_table_object
          refine isSome_bind_of _ _ ?_ ?_
          · exact format_table_object_children_total o indent _ _ cs.length cs 0 hfmt
          · exact fun a => rfl
        · -- format_expanded_object
          refine isSome_bind_of _ _ ?_ ?_
          · exact format_expanded_object_children_total o indent _ _ cs.length cs 0 hfmt
          · exact fun a => rfl
    | nullType => simp [format_item]
    | falseType => simp [format_item]
    | trueType => simp [format_item]
    | stringType => simp [format_item]
    | numberType => simp [format_item]
    | blankLine => simp [format_item]
    | lineComment => simp [format_item]
    | blockComment => simp [format_item]

theorem map_ac_item_type (f : String → String) (c : JsonItem) :
    (map_attached_comments f c).item_type = c.item_type := by
  cases c; rfl

theorem map_ac_name (f : String → String) (c : JsonItem) :
    (map_attached_comments f c).name = c.name := by
  cases c; rfl

theorem map_ac_value (f : String → String) (c : JsonItem) :
    (map_attached_comments f c).value = c.value := by
  cases c; rfl

theorem map_ac_children (f : String → String) (c : JsonItem) :
    (map_attached_comments f c).children = map_attached_comments_list f c.children := by
  cases c; rfl

theorem map_ac_has_comments (f : String → String) (c : JsonItem) :
    (map_attached_comments f c).has_comments = c.has_comments := by
  cases c with
  | mk t n v pc mc qc ls cs =>
    simp [map_attached_comments, JsonItem.has_comments, JsonItem.pre_comment,
      JsonItem.mid_comment, JsonItem.post_comment]

theorem map_ac_list_length (f : String → String) (l : List JsonItem) :
    (map_attached_comments_list f l).length = l.length := by
  induction l with
  | nil => rfl
  | cons c l ih => simp [map_attached_comments_list, ih]

theorem map_ac_list_isEmpty (f : String → String) (l : List JsonItem) :
    (map_attached_comments_list f l).isEmpty = l.isEmpty := by
  cases l <;> rfl

theorem map_ac_is_empty (f : String → String) (c : JsonItem) :
    (map_attached_comments f c).is_empty = c.is_empty := by
  cases c with
  | mk t n v pc mc qc ls cs =>
    show JsonItem.is_empty (.mk t n v _ _ _ ls (map_attached_comments_list f cs)) = _
    unfold JsonItem.is_empty
    cases t <;> simp [JsonItem.item_type, JsonItem.children, map_ac_list_isEmpty]

theorem map_ac_complexity (f : String → String) :
    ∀ c : JsonItem, complexity (map_attached_comments f c) = complexity c := by
  have hlist : ∀ l : List JsonItem, (∀ c ∈ l, complexity (map_attached_comments f c) =
      complexity c) → complexity_children_max (map_attached_comments_list f l) =
      complexity_children_max l := by
    intro l
    induction l with
    | nil => intro _; rfl
    | cons c l ih =>
      intro h
      show max (complexity (map_attached_comments f c)) _ = _
      rw [h c (List.mem_cons_self _ _), ih (fun d hd => h d (List.mem_cons_of_mem _ hd))]
      rfl
  intro c
  induction c using JsonItem.ind with
  | h t n v pc mc qc ls cs ih =>
    show complexity (JsonItem.mk t n v _ _ _ ls (map_attached_comments_list f cs)) = _
    unfold complexity
    cases t <;> simp [hlist cs ih]

theorem map_ac_min_length (f : String → String) (o : FracturedJsonOptions) :
    ∀ c : JsonItem, minimum_total_length o (map_attached_comments f c) =
      minimum_total_length o c := by
  have harr : ∀ l : List JsonItem, (∀ c ∈ l, minimum_total_length o
      (map_attached_comments f c) = minimum_total_length o c) →
      array_children_length o (map_attached_comments_list f l) =
        array_children_length o l := by
    intro l
    induction l with
    | nil => intro _; rfl
    | cons c l ih =>
      intro h
      show minimum_total_length o (map_attached_comments f c) + _ = _
      rw [h c (List.mem_cons_self _ _), ih (fun d hd => h d (List.mem_cons_of_mem _ hd))]
      rfl
  have hobj : ∀ l : List JsonItem, (∀ c ∈ l, minimum_total_length o
      (map_attached_comments f c) = minimum_total_length o c) →
      object_children_length o (map_attached_comments_list f l) =
        object_children_length o l := by
    intro l
    induction l with
    | nil => intro _; rfl
    | cons c l ih =>
      intro h
      show byteLen (map_attached_comments f c).name + 1 + 2 +
          minimum_total_length o (map_attached_comments f c) + _ = _
      rw [map_ac_name, h c (List.mem_cons_self _ _),
        ih (fun d hd => h d (List.mem_cons_of_mem _ hd))]
      rfl
  intro c
  induction c using JsonItem.ind with
  | h t n v pc mc qc ls cs ih =>
    show minimum_total_length o
      (JsonItem.mk t n v _ _ _ ls (map_attached_comments_list f cs)) = _
    unfold minimum_total_length
    cases t <;>
      simp only [harr cs ih, hobj cs ih, map_ac_list_isEmpty, map_ac_list_length]

theorem map_ac_rml (f : String → String) :
    ∀ c : JsonItem, requires_multiple_lines (map_attached_comments f c) =
      requires_multiple_lines c := by
  have hcom : ∀ l : List JsonItem,
      children_have_comments (map_attached_comments_list f l) =
        children_have_comments l := by
    intro l
    induction l with
    | nil => rfl
    | cons c l ih =>
      show ((map_attached_comments f c).has_comments || _) = _
      rw [map_ac_has_comments, ih]
      rfl
  have hlist : ∀ l : List JsonItem, (∀ c ∈ l, requires_multiple_lines
      (map_attached_comments f c) = requires_multiple_lines c) →
      children_require_multiple_lines (map_attached_comments_list f l) =
        children_require_multiple_lines l := by
    intro l
    induction l with
    | nil => intro _; rfl
    | cons c l ih =>
      intro h
      show (requires_multiple_lines (map_attached_comments f c) || _) = _
      rw [h c (List.mem_cons_self _ _), ih (fun d hd => h d (List.mem_cons_of_mem _ hd))]
      rfl
  intro c
  induction c using JsonItem.ind with
  | h t n v pc mc qc ls cs ih =>
    show requires_multiple_lines
      (JsonItem.mk t n v _ _ _ ls (map_attached_comments_list f cs)) = _
    unfold requires_multiple_lines
    cases t <;> simp [hcom cs, hlist cs ih]

theorem map_ac_should_inline (f : String → String) (o : FracturedJsonOptions)
    (indent : Nat) (c : JsonItem) :
    should_inline (map_attached_comments f c) o indent = should_inline c o indent := by
  unfold should_inline
  rw [map_ac_rml, map_ac_has_comments, map_ac_complexity, map_ac_min_length]

theorem map_ac_should_compact (f : String → String) (o : FracturedJsonOptions)
    (c : JsonItem) :
    should_format_as_compact_array (map_attached_comments f c) o =
      should_format_as_compact_array c o := by
  unfold should_format_as_compact_array
  rw [map_ac_item_type, map_ac_is_empty, map_ac_complexity, map_ac_has_comments,
    map_ac_children, map_ac_list_length]

theorem map_ac_table_type (f : String → String) (c : JsonItem) :
    get_item_type_for_table (map_attached_comments f c) = get_item_type_for_table c := by
  unfold get_item_type_for_table
  rw [map_ac_item_type, map_ac_is_empty]

theorem map_ac_list_names (f : String → String) (l : List JsonItem) :
    (map_attached_comments_list f l).map JsonItem.name = l.map JsonItem.name := by
  induction l with
  | nil => rfl
  | cons c l ih => simp [map_attached_comments_list, map_ac_name, ih]

theorem map_ac_property_names (f : String → String) (c : JsonItem) :
    get_property_names (map_attached_comments f c) = get_property_names c := by
  unfold get_property_names
  rw [map_ac_item_type, map_ac_children, map_ac_list_names]

theorem map_ac_list_cons (f : String → String) (c : JsonItem) (l : List JsonItem) :
    map_attached_comments_list f (c :: l) =
      map_attached_comments f c :: map_attached_comments_list f l := rfl

theorem map_ac_all_table_type (f : String → String) (ft : Option JsonItemType) :
    ∀ l : List JsonItem,
      ((map_attached_comments_list f l).all fun c =>
        decide (get_item_type_for_table c = ft)) =
      (l.all fun c => decide (get_item_type_for_table c = ft)) := by
  intro l
  induction l with
  | nil => rfl
  | cons c l ih => simp only [map_ac_list_cons, List.all_cons, map_ac_table_type, ih]

theorem map_ac_all_prop_names (f : String → String) (ps : List String) :
    ∀ l : List JsonItem,
      ((map_attached_comments_list f l).all fun c =>
        decide (get_property_names c = ps)) =
      (l.all fun c => decide (get_property_names c = ps)) := by
  intro l
  induction l with
  | nil => rfl
  | cons c l ih => simp only [map_ac_list_cons, List.all_cons, map_ac_property_names, ih]

theorem map_ac_can_table_array (f : String → String) (c : JsonItem) :
    can_format_as_table_array (map_attached_comments f c) = can_format_as_table_array c := by
  unfold can_format_as_table_array
  rw [map_ac_is_empty, map_ac_children]
  cases hcs : c.children with
  | nil => rfl
  | cons c0 rest =>
    have hall := map_ac_all_table_type f (get_item_type_for_table c0) (c0 :: rest)
    simp only [map_ac_list_cons, map_ac_table_type] at hall ⊢
    rw [hall]

theorem map_ac_can_table_object (f : String → String) (c : JsonItem) :
    can_format_as_table_object (map_attached_comments f c) = can_format_as_table_object c := by
  unfold can_format_as_table_object
  rw [map_ac_is_empty, map_ac_children]
  cases hcs : c.children with
  | nil => rfl
  | cons c0 rest =>
    have hall := map_ac_all_prop_names f (get_property_names c0) (c0 :: rest)
    simp only [map_ac_list_cons, map_ac_property_names] at hall ⊢
    rw [hall]

theorem map_ac_should_table (f : String → String) (o : FracturedJsonOptions) (c : JsonItem) :
    should_format_as_table (map_attached_comments f c) o = should_format_as_table c o := by
  unfold should_format_as_table
  rw [map_ac_item_type, map_ac_rml, map_ac_is_empty, map_ac_complexity,
    map_ac_can_table_array, map_ac_can_table_object]

theorem write_pre_comment_remove (c : JsonItem) (o : FracturedJsonOptions)
    (h : o.comment_policy = CommentPolicy.remove) : write_pre_comment c o = "" := by
  unfold write_pre_comment
  rw [h]
  simp

theorem write_mid_comment_remove (c : JsonItem) (o : FracturedJsonOptions) (indent : Nat)
    (h : o.comment_policy = CommentPolicy.remove) : write_mid_comment c o indent = "" := by
  unfold write_mid_comment
  rw [h]
  simp

theorem write_post_comment_remove (c : JsonItem) (o : FracturedJsonOptions)
    (h : o.comment_policy = CommentPolicy.remove) : write_post_comment c o = "" := by
  unfold write_post_comment
  rw [h]
  simp

theorem map_ac_leaf (f : String → String) (o : FracturedJsonOptions) (c : JsonItem) :
    format_inline_value_leaf o (map_attached_comments f c) =
      format_inline_value_leaf o c := by
  cases c with
  | mk t n v pc mc qc ls cs =>
    cases t <;> simp [format_inline_value_leaf, JsonItem.item_type, JsonItem.value,
      map_attached_comments]

theorem map_ac_value_simple (f : String → String) (c : JsonItem) :
    format_value_simple (map_attached_comments f c) = format_value_simple c := by
  cases c with
  | mk t n v pc mc qc ls cs =>
    cases t <;> simp [format_value_simple, JsonItem.item_type, JsonItem.value,
      map_attached_comments]

theorem map_ac_display_len (f : String → String) (c : JsonItem) :
    calculate_value_display_length (map_attached_comments f c) =
      calculate_value_display_length c := by
  cases c with
  | mk t n v pc mc qc ls cs =>
    cases t <;> simp [calculate_value_display_length, JsonItem.item_type, JsonItem.value,
      map_attached_comments]

theorem map_ac_col_count (f : String → String) (c : JsonItem) :
    get_column_count (map_attached_comments f c) = get_column_count c := by
  unfold get_column_count
  rw [map_ac_item_type, map_ac_children]
  cases c.item_type <;> simp [map_ac_list_length]

theorem map_ac_list_value_simple (f : String → String) (l : List JsonItem) :
    (map_attached_comments_list f l).map format_value_simple = l.map format_value_simple := by
  induction l with
  | nil => rfl
  | cons c l ih => simp only [map_ac_list_cons, List.map_cons, map_ac_value_simple, ih]

theorem map_ac_col_values (f : String → String) (c : JsonItem) :
    get_column_values (map_attached_comments f c) = get_column_values c := by
  unfold get_column_values
  rw [map_ac_item_type, map_ac_children]
  cases c.item_type <;> simp [map_ac_list_value_simple, map_ac_value_simple]

theorem map_ac_object_row_widths (f : String → String) (o : FracturedJsonOptions)
    (indent : Nat) :
    ∀ (l : List JsonItem) (i : Nat) (w : List Nat),
      object_row_widths o indent (map_attached_comments_list f l) i w =
        object_row_widths o indent l i w := by
  intro l
  induction l with
  | nil => intro i w; rfl
  | cons c l ih =>
    intro i w
    simp only [map_ac_list_cons, object_row_widths, map_ac_name, map_ac_display_len, ih]

theorem map_ac_array_row_widths (f : String → String) (o : FracturedJsonOptions)
    (indent : Nat) :
    ∀ (l : List JsonItem) (i : Nat) (w : List Nat),
      array_row_widths o indent (map_attached_comments_list f l) i w =
        array_row_widths o indent l i w := by
  intro l
  induction l with
  | nil => intro i w; rfl
  | cons c l ih =>
    intro i w
    simp only [map_ac_list_cons, array_row_widths, map_ac_display_len, ih]

theorem map_ac_row_widths (f : String → String) (o : FracturedJsonOptions)
    (indent : Nat) (c : JsonItem) (w : List Nat) :
    row_widths o indent (map_attached_comments f c) w = row_widths o indent c w := by
  unfold row_widths
  rw [map_ac_item_type, map_ac_children, map_ac_display_len]
  cases c.item_type <;>
    simp [map_ac_object_row_widths, map_ac_array_row_widths]

theorem map_ac_rows_widths (f : String → String) (o : FracturedJsonOptions)
    (indent : Nat) :
    ∀ (l : List JsonItem) (w : List Nat),
      rows_widths o indent (map_attached_comments_list f l) w = rows_widths o indent l w := by
  intro l
  induction l with
  | nil => intro w; rfl
  | cons c l ih =>
    intro w
    simp only [map_ac_list_cons, rows_widths, map_ac_row_widths, ih]

theorem map_ac_calc_widths (f : String → String) (o : FracturedJsonOptions)
    (indent : Nat) (l : List JsonItem) :
    calculate_table_column_widths (map_attached_comments_list f l) indent o =
      calculate_table_column_widths l indent o := by
  cases l with
  | nil => rfl
  | cons c0 rest =>
    show rows_widths o indent
        (map_attached_comments f c0 :: map_attached_comments_list f rest)
        (List.replicate (get_column_count (map_attached_comments f c0)) 0) =
      rows_widths o indent (c0 :: rest) (List.replicate (get_column_count c0) 0)
    rw [map_ac_col_count]
    have := map_ac_rows_widths f o indent (c0 :: rest)
      (List.replicate (get_column_count c0) 0)
    simpa [map_ac_list_cons] using this

theorem map_ac_table_rows (f : String → String) (o : FracturedJsonOptions)
    (indent : Nat) (widths : List Nat) (total : Nat) :
    ∀ (l : List JsonItem) (i : Nat),
      table_rows o indent widths total (map_attached_comments_list f l) i =
        table_rows o indent widths total l i := by
  intro l
  induction l with
  | nil => intro i; rfl
  | cons c l ih =>
    intro i
    simp only [map_ac_list_cons, table_rows, map_ac_col_values, ih]

theorem map_ac_format_table_array (f : String → String) (o : FracturedJsonOptions)
    (indent : Nat) (c : JsonItem) :
    format_table_array (map_attached_comments f c) o indent =
      format_table_array c o indent := by
  unfold format_table_array
  rw [map_ac_children]
  simp only [map_ac_calc_widths, map_ac_list_length, map_ac_table_rows]

theorem map_ac_children_min_sum (f : String → String) (o : FracturedJsonOptions) :
    ∀ l : List JsonItem,
      children_min_length_sum o (map_attached_comments_list f l) =
        children_min_length_sum o l := by
  intro l
  induction l with
  | nil => rfl
  | cons c l ih =>
    simp only [map_ac_list_cons, children_min_length_sum, map_ac_min_length, ih]

theorem map_ac_items_per_row (f : String → String) (o : FracturedJsonOptions)
    (indent : Nat) (c : JsonItem) :
    calculate_items_per_row (map_attached_comments f c) o indent =
      calculate_items_per_row c o indent := by
  unfold calculate_items_per_row
  rw [map_ac_is_empty, map_ac_children, map_ac_children_min_sum, map_ac_list_length]

theorem map_ac_any_not_comment_blank (f : String → String) :
    ∀ l : List JsonItem,
      ((map_attached_comments_list f l).any fun c => !c.item_type.is_comment_or_blank) =
        (l.any fun c => !c.item_type.is_comment_or_blank) := by
  intro l
  induction l with
  | nil => rfl
  | cons c l ih =>
    simp only [map_ac_list_cons, List.any_cons, map_ac_item_type, ih]

theorem map_ac_all_number (f : String → String) :
    ∀ l : List JsonItem,
      ((map_attached_comments_list f l).all fun c =>
        c.item_type == JsonItemType.numberType) =
        (l.all fun c => c.item_type == JsonItemType.numberType) := by
  intro l
  induction l with
  | nil => rfl
  | cons c l ih =>
    simp only [map_ac_list_cons, List.all_cons, map_ac_item_type, ih]

theorem map_ac_list_values (f : String → String) :
    ∀ l : List JsonItem,
      (map_attached_comments_list f l).map JsonItem.value = l.map JsonItem.value := by
  intro l
  induction l with
  | nil => rfl
  | cons c l ih => simp only [map_ac_list_cons, List.map_cons, map_ac_value, ih]

theorem map_ac_name_lens (f : String → String) :
    ∀ l : List JsonItem,
      (map_attached_comments_list f l).map (fun c => byteLen c.name) =
        l.map (fun c => byteLen c.name) := by
  intro l
  induction l with
  | nil => rfl
  | cons c l ih => simp only [map_ac_list_cons, List.map_cons, map_ac_name, ih]

theorem map_ac_inline_children (f : String → String) (o : FracturedJsonOptions)
    (hpre : ∀ c, write_pre_comment c o = "") (hpost : ∀ c, write_post_comment c o = "") :
    ∀ l : List JsonItem,
      (∀ c ∈ l, ∀ ind, format_item o ind (map_attached_comments f c) = format_item o ind c) →
      ∀ i, format_inline_children o i (map_attached_comments_list f l) =
        format_inline_children o i l := by
  intro l
  induction l with
  | nil => intro _ i; rfl
  | cons c rest ih =>
    intro h i
    simp only [map_ac_list_cons, format_inline_children, map_ac_item_type, map_ac_leaf,
      hpre, hpost, h c (List.mem_cons_self _ _),
      ih (fun d hd => h d (List.mem_cons_of_mem _ hd))]

theorem map_ac_inline_object_children (f : String → String) (o : FracturedJsonOptions)
    (hpre : ∀ c, write_pre_comment c o = "")
    (hmid : ∀ c ind, write_mid_comment c o ind = "")
    (hpost : ∀ c, write_post_comment c o = "") (indent : Nat) (hp : Bool) :
    ∀ l : List JsonItem,
      (∀ c ∈ l, ∀ ind, format_item o ind (map_attached_comments f c) = format_item o ind c) →
      ∀ i, format_inline_object_children o indent hp i (map_attached_comments_list f l) =
        format_inline_object_children o indent hp i l := by
  intro l
  induction l with
  | nil => intro _ i; rfl
  | cons c rest ih =>
    intro h i
    simp only [map_ac_list_cons, format_inline_object_children, map_ac_item_type,
      map_ac_leaf, map_ac_name, hpre, hmid, hpost, h c (List.mem_cons_self _ _),
      ih (fun d hd => h d (List.mem_cons_of_mem _ hd))]

theorem map_ac_compact_children (f : String → String) (o : FracturedJsonOptions)
    (hpre : ∀ c, write_pre_comment c o = "") (hpost : ∀ c, write_post_comment c o = "")
    (indent items_per_row total : Nat) :
    ∀ l : List JsonItem,
      (∀ c ∈ l, ∀ ind, format_item o ind (map_attached_comments f c) = format_item o ind c) →
      ∀ i cur, format_compact_children o indent items_per_row total i cur
        (map_attached_comments_list f l) =
        format_compact_children o indent items_per_row total i cur l := by
  intro l
  induction l with
  | nil => intro _ i cur; rfl
  | cons c rest ih =>
    intro h i cur
    simp only [map_ac_list_cons, format_compact_children, map_ac_item_type, map_ac_leaf,
      hpre, hpost, h c (List.mem_cons_self _ _),
      ih (fun d hd => h d (List.mem_cons_of_mem _ hd))]

theorem map_ac_table_object_children (f : String → String) (o : FracturedJsonOptions)
    (hpre : ∀ c, write_pre_comment c o = "")
    (hmid : ∀ c ind, write_mid_comment c o ind = "")
    (hpost : ∀ c, write_post_comment c o = "") (indent padding : Nat) (hp : Bool)
    (total : Nat) :
    ∀ l : List JsonItem,
      (∀ c ∈ l, ∀ ind, format_item o ind (map_attached_comments f c) = format_item o ind c) →
      ∀ i, format_table_object_children o indent padding hp total i
        (map_attached_comments_list f l) =
        format_table_object_children o indent padding hp total i l := by
  intro l
  induction l with
  | nil => intro _ i; rfl
  | cons c rest ih =>
    intro h i
    simp only [map_ac_list_cons, format_table_object_children, map_ac_item_type,
      map_ac_name, hpre, hmid, hpost, h c (List.mem_cons_self _ _),
      ih (fun d hd => h d (List.mem_cons_of_mem _ hd))]

theorem map_ac_expanded_array_children (f : String → String) (o : FracturedJsonOptions)
    (hpre : ∀ c, write_pre_comment c o = "") (hpost : ∀ c, write_post_comment c o = "")
    (indent : Nat) (sa : Bool) (nums : List String) (ae : Bool) (total : Nat) :
    ∀ l : List JsonItem,
      (∀ c ∈ l, ∀ ind, format_item o ind (map_attached_comments f c) = format_item o ind c) →
      ∀ i, format_expanded_array_children o indent sa nums ae total i
        (map_attached_comments_list f l) =
        format_expanded_array_children o indent sa nums ae total i l := by
  intro l
  induction l with
  | nil => intro _ i; rfl
  | cons c rest ih =>
    intro h i
    simp only [map_ac_list_cons, format_expanded_array_children, map_ac_item_type,
      map_ac_value, hpre, hpost, h c (List.mem_cons_self _ _),
      ih (fun d hd => h d (List.mem_cons_of_mem _ hd))]

theorem map_ac_expanded_object_children (f : String → String) (o : FracturedJsonOptions)
    (hpre : ∀ c, write_pre_comment c o = "")
    (hmid : ∀ c ind, write_mid_comment c o ind = "")
    (hpost : ∀ c, write_post_comment c o = "") (indent : Nat) (hp oe : Bool)
    (total : Nat) :
    ∀ l : List JsonItem,
      (∀ c ∈ l, ∀ ind, format_item o ind (map_attached_comments f c) = format_item o ind c) →
      ∀ i, format_expanded_object_children o indent hp oe total i
        (map_attached_comments_list f l) =
        format_expanded_object_children o indent hp oe total i l := by
  intro l
  induction l with
  | nil => intro _ i; rfl
  | cons c rest ih =>
    intro h i
    simp only [map_ac_list_cons, format_expanded_object_children, map_ac_item_type,
      map_ac_name, hpre, hmid, hpost, h c (List.mem_cons_self _ _),
      ih (fun d hd => h d (List.mem_cons_of_mem _ hd))]

theorem map_ac_format_item (f : String → String) (o : FracturedJsonOptions)
    (hpol : o.comment_policy = CommentPolicy.remove) :
    ∀ (item : JsonItem) (indent : Nat),
      format_item o indent (map_attached_comments f item) = format_item o indent item := by
  have hpre : ∀ c, write_pre_comment c o = "" :=
    fun c => write_pre_comment_remove c o hpol
  have hmid : ∀ c ind, write_mid_comment c o ind = "" :=
    fun c ind => write_mid_comment_remove c o ind hpol
  have hpost : ∀ c, write_post_comment c o = "" :=
    fun c => write_post_comment_remove c o hpol
  intro item
  induction item using JsonItem.ind with
  | h t n v pc mc qc ls cs ih =>
    intro indent
    cases t with
    | arrayType =>
      show format_item o indent (JsonItem.mk JsonItemType.arrayType n v (Option.map f pc)
        (Option.map f mc) (Option.map f qc) ls (map_attached_comments_list f cs)) = _
      have hsi : should_inline (JsonItem.mk JsonItemType.arrayType n v (Option.map f pc)
          (Option.map f mc) (Option.map f qc) ls (map_attached_comments_list f cs)) o
          indent =
          should_inline (JsonItem.mk JsonItemType.arrayType n v pc mc qc ls cs) o indent :=
        map_ac_should_inline f o indent
          (JsonItem.mk JsonItemType.arrayType n v pc mc qc ls cs)
      have hsc : should_format_as_compact_array (JsonItem.mk JsonItemType.arrayType n v
          (Option.map f pc) (Option.map f mc) (Option.map f qc) ls
          (map_attached_comments_list f cs)) o =
          should_format_as_compact_array
            (JsonItem.mk JsonItemType.arrayType n v pc mc qc ls cs) o :=
        map_ac_should_compact f o (JsonItem.mk JsonItemType.arrayType n v pc mc qc ls cs)
      have hst : should_format_as_table (JsonItem.mk JsonItemType.arrayType n v
          (Option.map f pc) (Option.map f mc) (Option.map f qc) ls
          (map_attached_comments_list f cs)) o =
          should_format_as_table (JsonItem.mk JsonItemType.arrayType n v pc mc qc ls cs) o :=
        map_ac_should_table f o (JsonItem.mk JsonItemType.arrayType n v pc mc qc ls cs)
      have hemp : (JsonItem.mk JsonItemType.arrayType n v (Option.map f pc)
          (Option.map f mc) (Option.map f qc) ls
          (map_attached_comments_list f cs)).is_empty =
          (JsonItem.mk JsonItemType.arrayType n v pc mc qc ls cs).is_empty :=
        map_ac_is_empty f (JsonItem.mk JsonItemType.arrayType n v pc mc qc ls cs)
      have hipr : calculate_items_per_row (JsonItem.mk JsonItemType.arrayType n v
          (Option.map f pc) (Option.map f mc) (Option.map f qc) ls
          (map_attached_comments_list f cs)) o indent =
          calculate_items_per_row
            (JsonItem.mk JsonItemType.arrayType n v pc mc qc ls cs) o indent :=
        map_ac_items_per_row f o indent
          (JsonItem.mk JsonItemType.arrayType n v pc mc qc ls cs)
      have htbl : format_table_array (JsonItem.mk JsonItemType.arrayType n v
          (Option.map f pc) (Option.map f mc) (Option.map f qc) ls
          (map_attached_comments_list f cs)) o indent =
          format_table_array
            (JsonItem.mk JsonItemType.arrayType n v pc mc qc ls cs) o indent :=
        map_ac_format_table_array f o indent
          (JsonItem.mk JsonItemType.arrayType n v pc mc qc ls cs)
      simp only [format_item, hsi, hsc, hst, hemp, hipr, htbl, map_ac_list_length,
        map_ac_all_number, map_ac_list_values, map_ac_inline_children f o hpre hpost cs ih,
        map_ac_compact_children f o hpre hpost, map_ac_expanded_array_children f o hpre
          hpost]
      simp only [map_ac_compact_children f o hpre hpost indent _ _ cs ih,
        map_ac_expanded_array_children f o hpre hpost indent _ _ _ _ cs ih]
    | objectType =>
      show format_item o indent (JsonItem.mk JsonItemType.objectType n v (Option.map f pc)
        (Option.map f mc) (Option.map f qc) ls (map_attached_comments_list f cs)) = _
      have hsi : should_inline (JsonItem.mk JsonItemType.objectType n v (Option.map f pc)
          (Option.map f mc) (Option.map f qc) ls (map_attached_comments_list f cs)) o
          indent =
          should_inline (JsonItem.mk JsonItemType.objectType n v pc mc qc ls cs) o indent :=
        map_ac_should_inline f o indent
          (JsonItem.mk JsonItemType.objectType n v pc mc qc ls cs)
      have hst : should_format_as_table (JsonItem.mk JsonItemType.objectType n v
          (Option.map f pc) (Option.map f mc) (Option.map f qc) ls
          (map_attached_comments_list f cs)) o =
          should_format_as_table (JsonItem.mk JsonItemType.objectType n v pc mc qc ls cs) o :=
        map_ac_should_table f o (JsonItem.mk JsonItemType.objectType n v pc mc qc ls cs)
      have hemp : (JsonItem.mk JsonItemType.objectType n v (Option.map f pc)
          (Option.map f mc) (Option.map f qc) ls
          (map_attached_comments_list f cs)).is_empty =
          (JsonItem.mk JsonItemType.objectType n v pc mc qc ls cs).is_empty :=
        map_ac_is_empty f (JsonItem.mk JsonItemType.objectType n v pc mc qc ls cs)
      simp only [format_item, hsi, hst, hemp, map_ac_list_length, map_ac_name_lens,
        map_ac_any_not_comment_blank,
        map_ac_inline_object_children f o hpre hmid hpost indent _ cs ih,
        map_ac_table_object_children f o hpre hmid hpost indent _ _ _ cs ih,
        map_ac_expanded_object_children f o hpre hmid hpost indent _ _ _ cs ih]
    | nullType => rfl
    | falseType => rfl
    | trueType => rfl
    | stringType => rfl
    | numberType => rfl
    | blankLine => rfl
    | lineComment => rfl
    | blockComment => rfl

/-! ## Claim theorems -/

/-- C1 counterexample: `format` is not total — on the well-formed tree
`[{"a":1},{"b":2,"c":3,"d":4}]` with table-eligible options it fails (the
`column_widths[col_idx]` index in `format_table_array` is out of bounds,
a panic in Rust) — and a zero line budget does not degrade to
maximally-expanded output: the four-number array is still rendered as a
compact array. -/
theorem c1_format_fails_on_ragged_table :
    format raggedArr optsT2 = none ∧
    chosen_layout arrC4 opts0 0 = some LayoutMode.compactArrayMode := by decide

/-- C2 counterexample: for the array `[1, 2, 3, 4]` whose first element
carries an attached prefix comment, the layout selector chooses
CompactArray under default options even though the subtree contains a
comment. -/
theorem c2_compact_chosen_despite_comment :
    chosen_layout arrC2 default_options 0 = some LayoutMode.compactArrayMode ∧
    spec_subtree_has_comment arrC2 = true := by decide

/-- C3 counterexample: an object whose own prefix comment is set but whose
only child is comment-free is NOT forced multiline by the code, although
the claim says it is. -/
theorem c3_own_comment_not_forcing :
    requires_multiple_lines objC3 = false ∧ objC3.has_comments = true := by decide

/-- C4: the compact-array renderer does not pack `items_per_row` children
per line.  For `[1,2,3,4]` with a 13-byte line budget the computed
items-per-row is 9 (all four should share one row), yet the output places
every item on its own line. -/
theorem c4_compact_array_one_item_per_line :
    chosen_layout arrC4 opts13 0 = some LayoutMode.compactArrayMode ∧
    calculate_items_per_row arrC4 opts13 0 = 9 ∧
    format arrC4 opts13 = some "[\n    1, \n    2, \n    3, \n    4\n]" := by decide

/-- C5: table rendering of `[{"x":1,"y":2},{"x":10,"y":20}]` under
table-eligible options emits value-only cells — the property names `x` and
`y` never appear in the output, although the column widths budget room for
them. -/
theorem c5_table_array_drops_property_names :
    chosen_layout arrC5 optsT2 0 = some LayoutMode.tableMode ∧
    format arrC5 optsT2 = some "[\n    1            , 2,\n    10           , 20\n]" := by decide

/-- C6 counterexample: for the one-character control string U+0001, the
display-length estimate plus quotes (4) is strictly below the length of
the escaped, quoted string `"\u0001"` (8). -/
theorem c6_estimate_below_escaped_length :
    calculate_value_display_length (leafStr "" ctrlStr) + 2 < byteLen (write_quotes ctrlStr) := by
  decide

/-- C7 counterexample: with comment policy Remove, formatting
`{"key": "value" /* c */}` does not equal formatting the comment-stripped
tree — the removed comment still forces multiline, so the output is
expanded instead of inline. -/
theorem c7_remove_not_equivalent_to_stripping :
    format objC7 removeOpts = some "\x7b\n    \"key\":     \"value\"\n\x7d" ∧
    format strippedC7 removeOpts = some "\x7b \"key\": \"value\" \x7d" ∧
    format objC7 removeOpts ≠ format strippedC7 removeOpts := by decide

/-- C7 amended: with comment policy Remove, no attached-comment text
reaches the output — the result is invariant under rewriting every attached
comment's text (only comment presence can matter, and by the
counterexample it does still matter). -/
theorem c7_amended_remove_text_invariance :
    ∀ (f : String → String) (item : JsonItem) (o : FracturedJsonOptions) (indent : Nat),
      o.comment_policy = CommentPolicy.remove →
      format_item o indent (map_attached_comments f item) = format_item o indent item := by
  intro f item o indent hpol
  exact map_ac_format_item f o hpol item indent

/-- C7 witness: rewriting the attached comment of
`{"key": "value" /* c */}` does not change the Remove-policy output. -/
theorem c7_amended_witness :
    removeOpts.comment_policy = CommentPolicy.remove ∧
    format_item removeOpts 0 (map_attached_comments (fun _ => "/* other */") objC7) =
      format_item removeOpts 0 objC7 :=
  ⟨by decide,
    c7_amended_remove_text_invariance (fun _ => "/* other */") objC7 removeOpts 0 (by decide)⟩

/-- C8: the object `{"a":1,"b":2}` with default options formats to exactly
the single inline line `{ "a": 1, "b": 2 }`. -/
theorem c8_default_inline_object :
    format objC8 default_options = some "\x7b \"a\": 1, \"b\": 2 \x7d" := by decide

/-- C1 amended: `format_item` returns a string for every Options record
and every tree whose containers all have near-uniform column counts (no
child exceeding the first child's column count by more than one, the
condition that keeps the table-renderer index in bounds); and compact-array
eligibility never reads `max_total_line_length`, so malformed line budgets
cannot push a compact-eligible array to the expanded fallback. -/
theorem c1_amended_conditional_totality :
    (∀ (item : JsonItem) (o : FracturedJsonOptions) (indent : Nat),
      table_safe item = true → (format_item o indent item).isSome = true) ∧
    (∀ (item : JsonItem) (o : FracturedJsonOptions) (len : Nat),
      should_format_as_compact_array item { o with max_total_line_length := len } =
        should_format_as_compact_array item o) := by
  constructor
  · intro item o indent h
    exact format_item_total o item h indent
  · intro item o len
    rfl

/-- C1 witness: the concrete four-number array is table-safe, formats
successfully, and its compact-array eligibility is unchanged by zeroing the
line budget. -/
theorem c1_amended_witness :
    table_safe arrC4 = true ∧ (format_item default_options 0 arrC4).isSome = true ∧
    should_format_as_compact_array arrC4
        { default_options with max_total_line_length := 0 } =
      should_format_as_compact_array arrC4 default_options :=
  ⟨by decide, c1_amended_conditional_totality.1 arrC4 default_options 0 (by decide),
    c1_amended_conditional_totality.2 arrC4 default_options 0⟩

/-- C2 amended: an attached comment on the node itself or the
forced-multiline flag disqualifies Inline; the node's own attached comment
disqualifies CompactArray; forced-multiline disqualifies Table for arrays;
and an object whose subtree contains comments (here even forced multiline)
can still be chosen for Table. -/
theorem c2_amended_comment_layout_rules :
    (∀ (item : JsonItem) (o : FracturedJsonOptions) (indent : Nat),
      (item.has_comments || requires_multiple_lines item) = true →
      chosen_layout item o indent ≠ some LayoutMode.inlineMode) ∧
    (∀ (item : JsonItem) (o : FracturedJsonOptions) (indent : Nat),
      item.has_comments = true →
      chosen_layout item o indent ≠ some LayoutMode.compactArrayMode) ∧
    (∀ (item : JsonItem) (o : FracturedJsonOptions) (indent : Nat),
      item.item_type = JsonItemType.arrayType → requires_multiple_lines item = true →
      chosen_layout item o indent ≠ some LayoutMode.tableMode) ∧
    (requires_multiple_lines objTbl = true ∧ spec_subtree_has_comment objTbl = true ∧
      chosen_layout objTbl optsT2 0 = some LayoutMode.tableMode) := by
  refine ⟨?_, ?_, ?_, by decide⟩
  · intro item o indent h
    have hsi := should_inline_eq_false_of_comments item o indent (by simpa using h)
    unfold chosen_layout
    cases ht : item.item_type <;> simp [hsi] <;> split_ifs <;> simp
  · intro item o indent h
    have hsc := should_compact_eq_false_of_comments item o h
    unfold chosen_layout
    cases ht : item.item_type <;> simp [hsc] <;> split_ifs <;> simp
  · intro item o indent h1 h2
    have hst := should_table_eq_false_of_rml item o h1 h2
    unfold chosen_layout
    cases ht : item.item_type <;> simp_all [hst] <;> (split_ifs <;> simp)

/-- C2 witness: the two-element array carrying its own prefix comment is
not given CompactArray layout. -/
theorem c2_amended_witness :
    arrOwn.has_comments = true ∧
    chosen_layout arrOwn optsT2 0 ≠ some LayoutMode.compactArrayMode :=
  ⟨by decide, c2_amended_comment_layout_rules.2.1 arrOwn optsT2 0 (by decide)⟩

/-- C9: complexity is 0 for scalars, comments and blank lines, and one
plus the maximum child complexity (0 when childless) for containers; a
container's complexity strictly exceeds every child's. -/
theorem c9_complexity_characterization :
    ∀ item : JsonItem,
      complexity item =
        (if item.item_type.is_structural then (item.children.map complexity).foldr max 0 + 1
         else 0) ∧
      (∀ c ∈ item.children, item.item_type.is_structural = true →
        complexity c < complexity item) := by
  intro item
  cases item with
  | mk t n v pc mc qc ls cs =>
    constructor
    · cases t <;>
        simp [complexity, JsonItem.item_type, JsonItem.children,
          JsonItemType.is_structural, complexity_children_max_eq]
    · intro c hc hstruct
      have hle := le_complexity_children_max c cs (by simpa [JsonItem.children] using hc)
      cases t <;> simp_all [complexity, JsonItem.item_type, JsonItemType.is_structural] <;>
        omega

/-- C9 witness: at the concrete array `[1, 2, 3, 4]`, the complexity
equation holds and every child's complexity is strictly smaller. -/
theorem c9_witness :
    leafNum "" "1" ∈ arrC4.children ∧ arrC4.item_type.is_structural = true ∧
    complexity (leafNum "" "1") < complexity arrC4 :=
  ⟨List.mem_cons_self _ _, by decide,
    (c9_complexity_characterization arrC4).2 (leafNum "" "1") (List.mem_cons_self _ _)
      (by decide)⟩

/-- C10: in table-array rendering each non-last cell is padded with
`width - byteLen value` spaces, where the subtraction saturates (zero
spaces once the cell is at least as wide as its column), `write_spaces n`
produces exactly `n` spaces, and a row renders successfully whenever its
column positions stay inside the width vector — over-wide cells never make
the renderer fail. -/
theorem c10_table_padding_saturates :
    (∀ (o : FracturedJsonOptions) (widths : List Nat) (values : List String) (k : Nat),
      values.length + k ≤ widths.length + 1 →
      (table_row_cells o widths values k).isSome = true) ∧
    (∀ (w : Nat) (v : String), w ≤ byteLen v → write_spaces (w - byteLen v) = "") ∧
    (∀ n : Nat, write_spaces n = String.mk (List.replicate n ' ')) := by
  refine ⟨fun o widths => table_row_cells_isSome o widths, ?_, write_spaces_eq⟩
  intro w v h
  rw [Nat.sub_eq_zero_of_le h]
  rfl

/-- C3 amended: for well-formed trees, the forces-multiline flag is true
iff the node is a container and some node strictly below it carries an
attached comment; the node's own attached comments never matter. -/
theorem c3_amended_forced_multiline_characterization :
    ∀ item : JsonItem, wf item = true →
      requires_multiple_lines item =
        (item.item_type.is_structural && proper_subtree_has_attached_comment item) := by
  intro item
  induction item using JsonItem.ind with
  | h t n v pc mc qc ls cs ih =>
    intro hwf
    have hwf' := hwf
    simp only [wf, Bool.and_eq_true] at hwf'
    have hkey := rml_list_characterization cs ih hwf'.2
    cases t <;>
      simp [requires_multiple_lines, JsonItem.item_type, JsonItemType.is_structural,
        proper_subtree_has_attached_comment, hkey]

/-- C3 witness: for the well-formed object `objTbl` (a member of which
carries an attached comment) the characterization holds concretely. -/
theorem c3_amended_witness :
    wf objTbl = true ∧
    requires_multiple_lines objTbl =
      (objTbl.item_type.is_structural && proper_subtree_has_attached_comment objTbl) :=
  ⟨by decide, c3_amended_forced_multiline_characterization objTbl (by decide)⟩

/-- C6 amended: the string display-length estimate plus quotes bounds the
escaped quoted length whenever no character needs a hex escape and the
number of escape-needing characters is at most `len/5 + 10`. -/
theorem c6_amended_estimate_bound :
    ∀ s : String, (∀ c ∈ s.data, char_hex_escaped c = false) →
    (s.data.filter char_needs_escape).length ≤ byteLen s / 5 + 10 →
    byteLen (write_quotes s) ≤
      calculate_value_display_length
        (JsonItem.mk .stringType "" s none none none false []) + 2 := by
  intro s hx hcnt
  have hdisp : calculate_value_display_length
      (JsonItem.mk .stringType "" s none none none false []) =
      min (byteLen s * 2) (byteLen s + byteLen s / 5 + 10) := rfl
  have hq : byteLen (write_quotes s) = 1 + byteLen (escape_string s) + 1 := by
    unfold write_quotes
    rw [byteLen_append, byteLen_append]
    have h1 : byteLen "\"" = 1 := by decide
    rw [h1]
  have hsum : byteLen s = (s.data.map Char.utf8Size).sum := rfl
  have hesc : byteLen (escape_string s) ≤
      byteLen s + (s.data.filter char_needs_escape).length := by
    unfold escape_string
    split
    · omega
    · rw [byteLen_mk, flatMap_escaped_sum, escaped_len_split, extra_sum_eq_filter s.data hx]
      omega
  have hfl_le : (s.data.filter char_needs_escape).length ≤ byteLen s := by
    have h2 := List.length_filter_le char_needs_escape s.data
    have h3 := length_le_utf8_sum s.data
    omega
  rw [hdisp, hq]
  omega

/-- C6 witness: the bound holds concretely for the escape-free string
`hello`. -/
theorem c6_amended_witness :
    (∀ c ∈ ("hello" : String).data, char_hex_escaped c = false) ∧
    (("hello" : String).data.filter char_needs_escape).length ≤ byteLen "hello" / 5 + 10 ∧
    byteLen (write_quotes "hello") ≤
      calculate_value_display_length
        (JsonItem.mk .stringType "" "hello" none none none false []) + 2 :=
  ⟨by decide, by decide, c6_amended_estimate_bound "hello" (by decide) (by decide)⟩

/-- C10 witness: a row with an over-wide first cell (7 bytes against a
2-byte column) still renders, and its padding is empty. -/
theorem c10_witness :
    (["toolong", "x"] : List String).length + 0 ≤ ([2] : List Nat).length + 1 ∧
    (table_row_cells default_options [2] ["toolong", "x"] 0).isSome = true ∧
    (2 : Nat) ≤ byteLen "toolong" ∧ write_spaces (2 - byteLen "toolong") = "" :=
  ⟨by decide, c10_table_padding_saturates.1 default_options [2] ["toolong", "x"] 0 (by decide),
    by decide, c10_table_padding_saturates.2.1 2 "toolong" (by decide)⟩

end FracturedJson
